import Mathlib

/-!
Verification of the introspection/patching layer of lune-but-weird.

The development shallowly embeds the Rust sources:
  src/mlua-main/src/debug_api.rs      (LuaDebugExt)
  src/mlua-main/src/function_api.rs   (LuaFunctionExt)
  src/mlua-main/src/gc_api.rs         (LuaGCExt)
  src/crates/lune-roblox/src/globals.rs (global surface)
over an explicit VM state (tables, functions, call frames, operand stack).
The native Luau primitives (lua_getupvalue, luau_getconstant, ...) and the
pieces of the mlua core that are not part of the repository sources
(StackGuard, registry keys, Table get and set) are modelled from their
documented interfaces or from the specification, as noted on each
definition.  Fallible allocations (create_table, raw_set, table set) draw
from an explicit fault-injection stream so that error paths are reachable,
matching the specification's own "including on injected failures" framing.
-/

namespace LuneWeird

/-- Host-side tagged value, from the spec data model: a tagged union over
nil, boolean, number, string, table, function, userdata, thread.
Reference kinds carry the identity of the VM object they point to. -/
inductive Value where
  | nil : Value
  | boolean : Bool → Value
  | number : Int → Value
  | str : String → Value
  | table : Nat → Value
  | function : Nat → Value
  | userdata : Nat → Value
  | thread : Nat → Value
deriving DecidableEq, Repr

/-- Error values produced by the extension layer: mlua RuntimeError with its
message, and memory/allocation failure. -/
inductive Err where
  | runtime : String → Err
  | memory : Err
deriving DecidableEq, Repr

instance {ε α : Type} [DecidableEq ε] [DecidableEq α] : DecidableEq (Except ε α)
  | Except.error e, Except.error f =>
    if h : e = f then isTrue (by rw [h]) else isFalse (fun hc => h (Except.error.inj hc))
  | Except.error _, Except.ok _ => isFalse (fun hc => Except.noConfusion hc)
  | Except.ok _, Except.error _ => isFalse (fun hc => Except.noConfusion hc)
  | Except.ok a, Except.ok b =>
    if h : a = b then isTrue (by rw [h]) else isFalse (fun hc => h (Except.ok.inj hc))

/-- Luau type tags (lua.h). -/
def LUA_TNIL : Nat := 0
def LUA_TBOOLEAN : Nat := 1
def LUA_TNUMBER : Nat := 3
def LUA_TSTRING : Nat := 5
def LUA_TTABLE : Nat := 6
def LUA_TFUNCTION : Nat := 7
def LUA_TUSERDATA : Nat := 8
def LUA_TTHREAD : Nat := 9

/-- lua_type: runtime type tag of a value. -/
def luaType : Value → Nat
  | Value.nil => LUA_TNIL
  | Value.boolean _ => LUA_TBOOLEAN
  | Value.number _ => LUA_TNUMBER
  | Value.str _ => LUA_TSTRING
  | Value.table _ => LUA_TTABLE
  | Value.function _ => LUA_TFUNCTION
  | Value.userdata _ => LUA_TUSERDATA
  | Value.thread _ => LUA_TTHREAD

/-- A VM table: its entries (association list over raw keys, keys unique),
its Luau read-only flag, and an optional metatable reference. -/
structure TableData where
  entries : List (Value × Value)
  readonly : Bool
  metatable : Option Nat
deriving DecidableEq, Repr

def emptyTable : TableData := ⟨[], false, none⟩

/-- A VM closure: classification (interpreted Lua closure versus native C
closure), upvalues (name and current value), the constant pool of its
compiled body, and its nested prototypes (as function identities). -/
structure FunctionData where
  isLua : Bool
  upvalues : List (String × Value)
  constants : List Value
  protos : List Nat
deriving DecidableEq, Repr

/-- The embedded interpreter state: object maps by identity, the call
frames visible to luau_getstack, the identity of the VM registry table, the
operand stack (top at the head), the next fresh identity, and the
injected-fault stream for fallible allocations (head consumed first; an
exhausted stream means every allocation succeeds). -/
structure LuaState where
  tables : List (Nat × TableData)
  functions : List (Nat × FunctionData)
  userdataMeta : List (Nat × Nat)
  frames : List (List Value)
  registryId : Nat
  stack : List Value
  nextId : Nat
  faults : List Bool
deriving DecidableEq, Repr

/-! ### Association-list helpers -/

def assocFind {α : Type} : List (Nat × α) → Nat → Option α
  | [], _ => none
  | p :: rest, id => if p.1 = id then some p.2 else assocFind rest id

def assocReplace {α : Type} : List (Nat × α) → Nat → α → List (Nat × α)
  | [], _, _ => []
  | p :: rest, id, v =>
    if p.1 = id then (id, v) :: assocReplace rest id v else p :: assocReplace rest id v

/-- Raw table lookup (lua_rawget): first binding of the key, nil if absent. -/
def assocGet : List (Value × Value) → Value → Value
  | [], _ => Value.nil
  | p :: rest, k => if p.1 = k then p.2 else assocGet rest k

/-- Raw table update (lua_rawset): assigning nil erases the key, otherwise
an existing binding is overwritten in place and a new key is appended. -/
def assocSet : List (Value × Value) → Value → Value → List (Value × Value)
  | [], k, v => if v = Value.nil then [] else [(k, v)]
  | p :: rest, k, v =>
    if p.1 = k then (if v = Value.nil then rest else (k, v) :: rest)
    else p :: assocSet rest k v

/-- Number of bindings a table holds for one key. -/
def countKey : List (Value × Value) → Value → Nat
  | [], _ => 0
  | p :: rest, k => (if p.1 = k then 1 else 0) + countKey rest k

/-- Positional list lookup (own recursion, to keep one normal form in
proofs). -/
def nth? {α : Type} : List α → Nat → Option α
  | [], _ => none
  | a :: _, 0 => some a
  | _ :: rest, n + 1 => nth? rest n

/-! ### State primitives -/

def lookupTable (s : LuaState) (id : Nat) : Option TableData := assocFind s.tables id

def lookupFunction (s : LuaState) (id : Nat) : Option FunctionData := assocFind s.functions id

def setTable (s : LuaState) (id : Nat) (td : TableData) : LuaState :=
  { s with tables := assocReplace s.tables id td }

def setFunction (s : LuaState) (id : Nat) (fd : FunctionData) : LuaState :=
  { s with functions := assocReplace s.functions id fd }

def pushStack (s : LuaState) (v : Value) : LuaState := { s with stack := v :: s.stack }

def popStack (s : LuaState) (n : Nat) : LuaState := { s with stack := s.stack.drop n }

/-- mlua pop_value: take the top stack slot as a host value. -/
def popValue (s : LuaState) : Value × LuaState := (s.stack.headD Value.nil, popStack s 1)

/-- Consume the next injected-fault token (false, i.e. success, once the
stream is exhausted). -/
def takeFault (s : LuaState) : Bool × LuaState :=
  match s.faults with
  | [] => (false, s)
  | f :: rest => (f, { s with faults := rest })

/-- Modelled from the spec: mlua util::StackGuard is not under src; the
spec's Stack Guard binds the current operand-stack depth and on destruction
(every exit path) restores the stack to that snapshot. -/
def withStackGuard {α : Type} (s : LuaState) (body : LuaState → Except Err α × LuaState) :
    Except Err α × LuaState :=
  let d := s.stack.length
  let r := body s
  (r.1, { r.2 with stack := r.2.stack.drop (r.2.stack.length - d) })

/-- Modelled from the mlua core interface (not under src): Lua::create_table
allocates a fresh empty table; the allocation may fail. -/
def createTableM (s : LuaState) : Except Err Nat × LuaState :=
  let (f, s1) := takeFault s
  if f then (Except.error Err.memory, s1)
  else (Except.ok s1.nextId,
    { s1 with tables := (s1.nextId, emptyTable) :: s1.tables, nextId := s1.nextId + 1 })

/-- Modelled from the mlua core interface (not under src): Table::raw_set.
Luau rejects raw writes to a read-only table; the store itself may fail on
allocation. -/
def tableRawSetM (s : LuaState) (tid : Nat) (k v : Value) : Except Err Unit × LuaState :=
  match lookupTable s tid with
  | none => (Except.error (Err.runtime "invalid table"), s)
  | some td =>
    if td.readonly then (Except.error (Err.runtime "attempt to modify a readonly table"), s)
    else
      let (f, s1) := takeFault s
      if f then (Except.error Err.memory, s1)
      else (Except.ok (), setTable s1 tid { td with entries := assocSet td.entries k v })

/-- Modelled from the mlua core interface (not under src): Table::set.  The
tables the embedded code writes through it carry no __newindex metamethod,
so the store reduces to the raw update with Luau's read-only rejection. -/
def tableSetM (s : LuaState) (tid : Nat) (k v : Value) : Except Err Unit × LuaState :=
  tableRawSetM s tid k v

/-- Modelled from the mlua core interface (not under src): Table::get on the
tables in play (no __index metamethod) is the raw lookup, nil if absent. -/
def tableGet (s : LuaState) (tid : Nat) (k : Value) : Value :=
  assocGet (((lookupTable s tid).getD emptyTable).entries) k

/-- Metatable of a value: tables and userdata carry one, other kinds none
in the modelled states. -/
def valueMetatable (s : LuaState) (v : Value) : Option Nat :=
  match v with
  | Value.table tid => (lookupTable s tid).bind (fun td => td.metatable)
  | Value.userdata uid => assocFind s.userdataMeta uid
  | _ => none

/-- lua_setmetatable effect on the object maps. -/
def setValueMetatable (s : LuaState) (v : Value) (mt : Option Nat) : LuaState :=
  match v with
  | Value.table tid =>
    match lookupTable s tid with
    | some td => setTable s tid { td with metatable := mt }
    | none => s
  | Value.userdata uid =>
    match mt with
    | some m => { s with userdataMeta := assocReplace s.userdataMeta uid m }
    | none => { s with userdataMeta := s.userdataMeta.filter (fun p => p.1 != uid) }
  | _ => s

/-! ### Native primitives (Lua C API and luadebugext interfaces)

The C implementations are outside the repository; each model follows the
declared interface in mlua-sys/src/luau/luadebugext.rs or the standard
Lua C API contract. -/

/-- 1-based upvalue index to a list position, bounds-checked. -/
def uvIdx (i : Int) (len : Nat) : Option Nat :=
  if 1 ≤ i ∧ i ≤ (len : Int) then some (i - 1).toNat else none

/-- lua_getupvalue: name and value of upvalue i, none when out of range. -/
def luaGetupvalue (s : LuaState) (fid : Nat) (i : Int) : Option (String × Value) :=
  match lookupFunction s fid with
  | some fd =>
    match uvIdx i fd.upvalues.length with
    | some n => nth? fd.upvalues n
    | none => none
  | none => none

/-- lua_setupvalue: when the index is valid, pops the value from the stack
top, writes the upvalue and returns its name; otherwise pops nothing and
returns no name. -/
def luaSetupvalue (s : LuaState) (fid : Nat) (i : Int) : Option String × LuaState :=
  match lookupFunction s fid with
  | some fd =>
    match uvIdx i fd.upvalues.length with
    | some n =>
      match nth? fd.upvalues n with
      | some (nm, _) =>
        let v := s.stack.headD Value.nil
        (some nm, setFunction (popStack s 1) fid { fd with upvalues := fd.upvalues.set n (nm, v) })
      | none => (none, s)
    | none => (none, s)
  | none => (none, s)

/-- luau_getconstant interface: the constant at a 0-based index when the
function is an interpreted closure and the index is within the reported
count, none otherwise. -/
def luauGetconstant (s : LuaState) (fid : Nat) (index : Nat) : Option Value :=
  match lookupFunction s fid with
  | some fd => if fd.isLua then nth? fd.constants index else none
  | none => none

/-- luau_getconstantcount interface. -/
def luauGetconstantcount (s : LuaState) (fid : Nat) : Nat :=
  match lookupFunction s fid with
  | some fd => if fd.isLua then fd.constants.length else 0
  | none => 0

/-- luau_setconstant interface: consumes the value on the stack top; the
write happens only when the index is within the reported count (the bounds
check lives in the primitive), and its status code is what the caller may
ignore. -/
def luauSetconstant (s : LuaState) (fid : Nat) (index : Nat) : LuaState :=
  let v := s.stack.headD Value.nil
  let s1 := popStack s 1
  match lookupFunction s1 fid with
  | some fd =>
    if fd.isLua ∧ index < fd.constants.length then
      setFunction s1 fid { fd with constants := fd.constants.set index v }
    else s1
  | none => s1

/-- luau_getproto interface: the nested prototype at a 0-based index, none
when out of range; both the inert and the activated form surface as a
function reference. -/
def luauGetproto (s : LuaState) (fid : Nat) (index : Nat) : Option Nat :=
  match lookupFunction s fid with
  | some fd => if fd.isLua then nth? fd.protos index else none
  | none => none

/-- Stack-frame slot visible to luau_getstack and luau_setstack: frame
level, then a 1-based slot index within the frame. -/
def stackSlot (s : LuaState) (level index : Nat) : Option Value :=
  match nth? s.frames level with
  | some fr => if 1 ≤ index ∧ index ≤ fr.length then nth? fr (index - 1) else none
  | none => none

/-- luau_setstack interface: consumes the value on the stack top and writes
the frame slot only when level and index are in range. -/
def luauSetstack (s : LuaState) (level index : Nat) : LuaState :=
  let v := s.stack.headD Value.nil
  let s1 := popStack s 1
  match nth? s1.frames level with
  | some fr =>
    if 1 ≤ index ∧ index ≤ fr.length then
      { s1 with frames := s1.frames.set level (fr.set (index - 1) v) }
    else s1
  | none => s1

/-! ### LuaDebugExt (src/mlua-main/src/debug_api.rs) -/

/-- debug_api.rs debug_get_registry_value: guarded; pushes the registry and
pops it back as a host value, demanding a table. -/
def debug_get_registry_value (s : LuaState) : Except Err Nat × LuaState :=
  withStackGuard s (fun s0 =>
    let s1 := pushStack s0 (Value.table s0.registryId)
    let (v, s2) := popValue s1
    match v with
    | Value.table t => (Except.ok t, s2)
    | _ => (Except.error (Err.runtime "Registry is not a table"), s2))

/-- debug_api.rs debug_get_upvalue: guarded; pushes the function, calls
lua_getupvalue, on a null name pops the function and fails, otherwise pops
the value then the function. -/
def debug_get_upvalue (s : LuaState) (fid : Nat) (index : Int) :
    Except Err (Option String × Value) × LuaState :=
  withStackGuard s (fun s0 =>
    let s1 := pushStack s0 (Value.function fid)
    match luaGetupvalue s1 fid index with
    | none => (Except.error (Err.runtime "Invalid upvalue index"), popStack s1 1)
    | some (nm, v) =>
      let s2 := pushStack s1 v
      let (val, s3) := popValue s2
      let s4 := popStack s3 1
      (Except.ok (some nm, val), s4))

/-- debug_api.rs debug_set_upvalue: guarded; pushes the function and the
value, calls lua_setupvalue on the function slot, pops one slot, and fails
when the primitive reported no such upvalue. -/
def debug_set_upvalue (s : LuaState) (fid : Nat) (index : Int) (v : Value) :
    Except Err (Option String) × LuaState :=
  withStackGuard s (fun s0 =>
    let s1 := pushStack s0 (Value.function fid)
    let s2 := pushStack s1 v
    let r := luaSetupvalue s2 fid index
    let s3 := popStack r.2 1
    match r.1 with
    | none => (Except.error (Err.runtime "Invalid upvalue index"), s3)
    | some nm => (Except.ok (some nm), s3))

/-- debug_api.rs debug_get_metatable: guarded; pushes the value, reads its
metatable bypassing the __metatable guard, absent metatable is a normal
none result. -/
def debug_get_metatable (s : LuaState) (v : Value) : Except Err (Option Nat) × LuaState :=
  withStackGuard s (fun s0 =>
    let s1 := pushStack s0 v
    match valueMetatable s1 v with
    | none => (Except.ok none, popStack s1 1)
    | some mtid =>
      let s2 := pushStack s1 (Value.table mtid)
      let (mv, s3) := popValue s2
      let s4 := popStack s3 1
      match mv with
      | Value.table t => (Except.ok (some t), s4)
      | _ => (Except.ok none, s4))

/-- debug_api.rs debug_set_metatable: guarded; pushes the value and the new
metatable (or nil), lua_setmetatable consumes the metatable operand. -/
def debug_set_metatable (s : LuaState) (v : Value) (mt : Option Nat) :
    Except Err Bool × LuaState :=
  withStackGuard s (fun s0 =>
    let s1 := pushStack s0 v
    let s2 := match mt with
      | some m => pushStack s1 (Value.table m)
      | none => pushStack s1 Value.nil
    let s3 := setValueMetatable (popStack s2 1) v mt
    let s4 := popStack s3 1
    (Except.ok true, s4))

/-- debug_api.rs clone_function: guarded; pushes the function,
lua_clonefunction pushes a fresh closure with the same behaviour, which is
popped off as the result. -/
def clone_function (s : LuaState) (fid : Nat) : Except Err Nat × LuaState :=
  withStackGuard s (fun s0 =>
    let s1 := pushStack s0 (Value.function fid)
    let fd := (lookupFunction s1 fid).getD ⟨true, [], [], []⟩
    let cid := s1.nextId
    let s2 := { s1 with
      functions := (cid, fd) :: s1.functions,
      nextId := cid + 1,
      stack := Value.function cid :: s1.stack }
    (Except.ok cid, popStack (popStack s2 1) 1))

/-- debug_api.rs is_table_readonly: guarded; pushes the table and reads the
Luau read-only flag. -/
def is_table_readonly (s : LuaState) (tid : Nat) : Except Err Bool × LuaState :=
  withStackGuard s (fun s0 =>
    let s1 := pushStack s0 (Value.table tid)
    let r := ((lookupTable s1 tid).map (fun td => td.readonly)).getD false
    (Except.ok r, popStack s1 1))

/-- debug_api.rs set_table_readonly: guarded; pushes the table and writes
the Luau read-only flag. -/
def set_table_readonly (s : LuaState) (tid : Nat) (ro : Bool) : Except Err Unit × LuaState :=
  withStackGuard s (fun s0 =>
    let s1 := pushStack s0 (Value.table tid)
    let s2 := match lookupTable s1 tid with
      | some td => setTable s1 tid { td with readonly := ro }
      | none => s1
    (Except.ok (), popStack s2 1))

/-! ### LuaFunctionExt (src/mlua-main/src/function_api.rs) -/

/-- Loop body of get_function_constants: luau_getconstant pushes constant i
(always in range here), pop_value takes it, raw_set may fail and propagate. -/
def constLoop (s : LuaState) (rid : Nat) (cs : List Value) (i : Int) :
    Except Err Unit × LuaState :=
  match cs with
  | [] => (Except.ok (), s)
  | c :: rest =>
    let s1 := pushStack s c
    let (val, s2) := popValue s1
    match tableRawSetM s2 rid (Value.number (i + 1)) val with
    | (Except.error e, s3) => (Except.error e, s3)
    | (Except.ok _, s3) => constLoop s3 rid rest (i + 1)

/-- The constant pool luau_getconstantcount / luau_getconstant iterate
over: that of an interpreted closure, empty for a native closure. -/
def constantsOf (s : LuaState) (fid : Nat) : List Value :=
  match lookupFunction s fid with
  | some fd => if fd.isLua then fd.constants else []
  | none => []

/-- function_api.rs get_function_constants: guarded; creates the result
table, pushes the function, copies each constant into the result keyed
1..count, pops the function. -/
def get_function_constants (s : LuaState) (fid : Nat) : Except Err Nat × LuaState :=
  withStackGuard s (fun s0 =>
    match createTableM s0 with
    | (Except.error e, s1) => (Except.error e, s1)
    | (Except.ok rid, s1) =>
      let s2 := pushStack s1 (Value.function fid)
      match constLoop s2 rid (constantsOf s2 fid) 0 with
      | (Except.error e, s3) => (Except.error e, s3)
      | (Except.ok _, s3) => (Except.ok rid, popStack s3 1))

/-- function_api.rs get_function_constant: guarded; pushes the function; a
successful luau_getconstant pushes the constant which is popped back,
otherwise the result is nil, never an error. -/
def get_function_constant (s : LuaState) (fid : Nat) (index : Nat) :
    Except Err Value × LuaState :=
  withStackGuard s (fun s0 =>
    let s1 := pushStack s0 (Value.function fid)
    match luauGetconstant s1 fid index with
    | some c =>
      let s2 := pushStack s1 c
      let (val, s3) := popValue s2
      (Except.ok val, popStack s3 1)
    | none => (Except.ok Value.nil, popStack s1 1))

/-- function_api.rs set_function_constant: guarded; pushes the function and
the value; luau_setconstant consumes the value and its status code is
ignored, so the call always reports success. -/
def set_function_constant (s : LuaState) (fid : Nat) (index : Nat) (v : Value) :
    Except Err Unit × LuaState :=
  withStackGuard s (fun s0 =>
    let s1 := pushStack s0 (Value.function fid)
    let s2 := pushStack s1 v
    let s3 := luauSetconstant s2 fid index
    let s4 := popStack s3 1
    (Except.ok (), s4))

/-- Loop body of get_function_protos: luau_getproto pushes prototype i in
inert form, pop_ref takes it, raw_set may fail and propagate. -/
def protoLoop (s : LuaState) (rid : Nat) (ps : List Nat) (i : Int) :
    Except Err Unit × LuaState :=
  match ps with
  | [] => (Except.ok (), s)
  | p :: rest =>
    let s1 := pushStack s (Value.function p)
    let s2 := popStack s1 1
    match tableRawSetM s2 rid (Value.number (i + 1)) (Value.function p) with
    | (Except.error e, s3) => (Except.error e, s3)
    | (Except.ok _, s3) => protoLoop s3 rid rest (i + 1)

/-- The prototype list luau_getprotocount / luau_getproto iterate over:
that of an interpreted closure, empty for a native closure. -/
def protosOf (s : LuaState) (fid : Nat) : List Nat :=
  match lookupFunction s fid with
  | some fd => if fd.isLua then fd.protos else []
  | none => []

/-- function_api.rs get_function_protos: guarded; creates the result table,
pushes the function, copies each nested prototype keyed 1..count, pops the
function. -/
def get_function_protos (s : LuaState) (fid : Nat) : Except Err Nat × LuaState :=
  withStackGuard s (fun s0 =>
    match createTableM s0 with
    | (Except.error e, s1) => (Except.error e, s1)
    | (Except.ok rid, s1) =>
      let s2 := pushStack s1 (Value.function fid)
      match protoLoop s2 rid (protosOf s2 fid) 0 with
      | (Except.error e, s3) => (Except.error e, s3)
      | (Except.ok _, s3) => (Except.ok rid, popStack s3 1))

/-- function_api.rs get_function_proto: guarded; pushes the function; a
successful luau_getproto pushes the prototype closure (inert or activated)
which is popped back, otherwise the result is none, never an error. -/
def get_function_proto (s : LuaState) (fid : Nat) (index : Nat) (_activated : Bool) :
    Except Err (Option Nat) × LuaState :=
  withStackGuard s (fun s0 =>
    let s1 := pushStack s0 (Value.function fid)
    match luauGetproto s1 fid index with
    | some p =>
      let s2 := pushStack s1 (Value.function p)
      let s3 := popStack s2 1
      (Except.ok (some p), popStack s3 1)
    | none => (Except.ok none, popStack s1 1))

/-- function_api.rs get_stack_value: guarded; a successful luau_getstack
pushes the frame slot which is popped back, otherwise the result is nil,
never an error. -/
def get_stack_value (s : LuaState) (level index : Nat) : Except Err Value × LuaState :=
  withStackGuard s (fun s0 =>
    match stackSlot s0 level index with
    | some v =>
      let s1 := pushStack s0 v
      let (val, s2) := popValue s1
      (Except.ok val, s2)
    | none => (Except.ok Value.nil, s0))

/-- function_api.rs set_stack_value: guarded; pushes the value;
luau_setstack consumes it and its status code is ignored, so the call
always reports success. -/
def set_stack_value (s : LuaState) (level index : Nat) (v : Value) :
    Except Err Unit × LuaState :=
  withStackGuard s (fun s0 =>
    let s1 := pushStack s0 v
    let s2 := luauSetstack s1 level index
    (Except.ok (), s2))

/-! ### LuaGCExt (src/mlua-main/src/gc_api.rs)

Neither gc_api operation acquires a StackGuard; the registry traversal
balances the stack by hand and an early error return leaves the pushed
slots behind. -/

/-- The lua_next traversal shared by both gc_api operations: on each step
the previous key is popped and the next key and value are pushed; an
included value is duplicated, popped off as a host value and stored at the
next array index of the result table (a failing store propagates); the
value is popped before the next step, and the final lua_next pops the last
key. -/
def gcLoop (s : LuaState) (rid : Nat) (remaining : List (Value × Value)) (i : Int)
    (inc : Value → Bool) : Except Err Unit × LuaState :=
  match remaining with
  | [] => (Except.ok (), popStack s 1)
  | (k, v) :: rest =>
    let s1 := pushStack (pushStack (popStack s 1) k) v
    if inc v then
      let s2 := popStack (pushStack s1 v) 1
      match tableRawSetM s2 rid (Value.number i) v with
      | (Except.error e, s3) => (Except.error e, s3)
      | (Except.ok _, s3) => gcLoop (popStack s3 1) rid rest (i + 1) inc
    else
      gcLoop (popStack s1 1) rid rest i inc

/-- gc_api.rs get_gc_objects inclusion rule: tables only on request,
functions, userdata and threads always, everything else never. -/
def gcInclude (include_tables : Bool) (v : Value) : Bool :=
  if luaType v == LUA_TTABLE then include_tables
  else luaType v == LUA_TFUNCTION || luaType v == LUA_TUSERDATA || luaType v == LUA_TTHREAD

/-- gc_api.rs get_gc_objects: creates the result table, pushes the registry
and a nil starting key, walks the registry collecting the included values,
and pops the registry; no stack guard is in force. -/
def get_gc_objects (s : LuaState) (include_tables : Bool) : Except Err Nat × LuaState :=
  match createTableM s with
  | (Except.error e, s1) => (Except.error e, s1)
  | (Except.ok rid, s1) =>
    let reg := (lookupTable s1 s1.registryId).getD emptyTable
    let s2 := pushStack s1 (Value.table s1.registryId)
    let s3 := pushStack s2 Value.nil
    match gcLoop s3 rid reg.entries 1 (gcInclude include_tables) with
    | (Except.error e, s4) => (Except.error e, s4)
    | (Except.ok _, s4) => (Except.ok rid, popStack s4 1)

/-- gc_api.rs filter_gc_objects type mapping: the lowercased filter name to
a Luau type tag; an unknown name has no tag. -/
def typeTagOf (type_filter : String) : Option Nat :=
  match type_filter.toLower with
  | "function" => some LUA_TFUNCTION
  | "table" => some LUA_TTABLE
  | "userdata" => some LUA_TUSERDATA
  | "thread" => some LUA_TTHREAD
  | "string" => some LUA_TSTRING
  | _ => none

/-- gc_api.rs filter_gc_objects: creates the result table; an unknown type
name returns it empty without error; otherwise walks the registry
collecting the values of the requested tag; no stack guard is in force. -/
def filter_gc_objects (s : LuaState) (type_filter : String) : Except Err Nat × LuaState :=
  match createTableM s with
  | (Except.error e, s1) => (Except.error e, s1)
  | (Except.ok rid, s1) =>
    match typeTagOf type_filter with
    | none => (Except.ok rid, s1)
    | some tag =>
      let reg := (lookupTable s1 s1.registryId).getD emptyTable
      let s2 := pushStack s1 (Value.table s1.registryId)
      let s3 := pushStack s2 Value.nil
      match gcLoop s3 rid reg.entries 1 (fun v => luaType v == tag) with
      | (Except.error e, s4) => (Except.error e, s4)
      | (Except.ok _, s4) => (Except.ok rid, popStack s4 1)

/-! ### Global surface (src/crates/lune-roblox/src/globals.rs) -/

/-- The registry key under which hookfunction keeps its mapping table. -/
def hooksKey : String := "__FUNCTION_HOOKS"

/-- Modelled from the mlua core interface (not under src):
named_registry_value resolves a string key in the VM registry and demands
the requested kind, here a table. -/
def namedRegistryTable (s : LuaState) : Option Nat :=
  match assocGet (((lookupTable s s.registryId).getD emptyTable).entries) (Value.str hooksKey) with
  | Value.table tid => some tid
  | _ => none

/-- Modelled from the mlua core interface (not under src):
set_named_registry_value stores under a string key in the VM registry,
which is never read-only. -/
def luaRegistrySetNamed (s : LuaState) (k : String) (v : Value) : LuaState :=
  match lookupTable s s.registryId with
  | some td => setTable s s.registryId { td with entries := assocSet td.entries (Value.str k) v }
  | none => s

/-- Allocation of a fresh empty table under a given identity (the
create_table().unwrap() of the fallback, modelled as succeeding). -/
def allocTableState (s1 : LuaState) (tid : Nat) : LuaState :=
  { s1 with tables := (tid, emptyTable) :: s1.tables, nextId := tid + 1 }

/-- The unwrap_or_else fallback of create_hookfunction: resolve the
__FUNCTION_HOOKS registry table, creating and registering a fresh one when
the named registry value is not a table. -/
def hooksTableFor (s1 : LuaState) : Nat × LuaState :=
  match namedRegistryTable s1 with
  | some tid => (tid, s1)
  | none =>
    let tid := s1.nextId
    let s2a := allocTableState s1 tid
    (tid, luaRegistrySetNamed s2a hooksKey (Value.table tid))

/-- globals.rs create_hookfunction body: demands a function target, clones
it as the original to return, fetches or creates the __FUNCTION_HOOKS
registry table, and records the target-to-hook mapping.  Modelled from the
spec: mlua's create_registry_value / RegistryKey table-key resolution is
not under src; per the spec the entry is keyed by a stable
registry-assigned identity of the original function, modelled as the
function value itself. -/
def hookfunction (s : LuaState) (target : Value) (hookId : Nat) : Except Err Value × LuaState :=
  match target with
  | Value.function fid =>
    match clone_function s fid with
    | (Except.error e, s1) => (Except.error e, s1)
    | (Except.ok origId, s1) =>
      let p := hooksTableFor s1
      match tableSetM p.2 p.1 (Value.function fid) (Value.function hookId) with
      | (Except.error e, s3) => (Except.error e, s3)
      | (Except.ok _, s3) => (Except.ok (Value.function origId), s3)
  | _ => (Except.error (Err.runtime "First argument must be a function"), s)

/-- globals.rs create_hookmetamethod body: reads the metatable of the
object (absent is a hard error), reads the current handler, installs the
hook in its place, and returns the previous handler. -/
def hookmetamethod (s : LuaState) (obj : Value) (method : String) (hookId : Nat) :
    Except Err Value × LuaState :=
  match debug_get_metatable s obj with
  | (Except.error e, s1) => (Except.error e, s1)
  | (Except.ok none, s1) => (Except.error (Err.runtime "Object has no metatable"), s1)
  | (Except.ok (some mtid), s1) =>
    let original := tableGet s1 mtid (Value.str method)
    match tableSetM s1 mtid (Value.str method) (Value.function hookId) with
    | (Except.error e, s2) => (Except.error e, s2)
    | (Except.ok _, s2) => (Except.ok original, s2)

/-- globals.rs create_checkcaller body: ignores its arguments and returns
true. -/
def checkcaller (s : LuaState) (_args : List Value) : Except Err Bool × LuaState :=
  (Except.ok true, s)

/-- globals.rs create_restorefunction body: accepts a function and does
nothing. -/
def restorefunction (s : LuaState) (_fid : Nat) : Except Err Unit × LuaState :=
  (Except.ok (), s)

/-- The ten debug.* extension members installed by create_globals, in
source order. -/
def debugMemberNames : List String :=
  ["getconstant", "getconstants", "getproto", "getprotos", "getstack",
   "getupvalue", "getupvalues", "setconstant", "setstack", "setupvalue"]

/-- Allocation of one host callback (lua.create_function), modelled as a
fresh native closure. -/
def allocFunction (s : LuaState) : Nat × LuaState :=
  (s.nextId,
    { s with
      functions := (s.nextId, (⟨false, [], [], []⟩ : FunctionData)) :: s.functions,
      nextId := s.nextId + 1 })

/-- The member-installation run of create_globals: each debug.* member is
created and stored with the question-mark operator, so a failing store
returns at once. -/
def installDebugMembers (s : LuaState) (tid : Nat) (names : List String) :
    Except Err Unit × LuaState :=
  match names with
  | [] => (Except.ok (), s)
  | n :: rest =>
    let p := allocFunction s
    match tableSetM p.2 tid (Value.str n) (Value.function p.1) with
    | (Except.error e, s2) => (Except.error e, s2)
    | (Except.ok _, s2) => installDebugMembers s2 tid rest

/-- globals.rs create_globals, lines 30 to 54: query the debug table's
read-only flag, clear it when set, install the ten debug.* members (each
store propagating failure immediately), then restore the flag — the
restore runs only on the success path. -/
def create_globals_debug (s : LuaState) (debugTid : Nat) : Except Err Unit × LuaState :=
  let r0 := is_table_readonly s debugTid
  let was_readonly := match r0.1 with
    | Except.ok b => b
    | Except.error _ => false
  let s1 := if was_readonly then (set_table_readonly r0.2 debugTid false).2 else r0.2
  match installDebugMembers s1 debugTid debugMemberNames with
  | (Except.error e, s2) => (Except.error e, s2)
  | (Except.ok _, s2) =>
    let s3 := if was_readonly then (set_table_readonly s2 debugTid true).2 else s2
    (Except.ok (), s3)

/-! ### Helper lemmas -/

theorem nth?_set_self {α : Type} (l : List α) (n : Nat) (a : α) (h : n < l.length) :
    nth? (l.set n a) n = some a := by
  induction l generalizing n with
  | nil => simp at h
  | cons x xs ih =>
    cases n with
    | zero => simp [List.set, nth?]
    | succ m =>
      simp only [List.set, nth?]
      exact ih m (by simpa using h)

theorem nth?_of_lt {α : Type} (l : List α) (n : Nat) (h : n < l.length) :
    ∃ a, nth? l n = some a := by
  induction l generalizing n with
  | nil => simp at h
  | cons x xs ih =>
    cases n with
    | zero => exact ⟨x, rfl⟩
    | succ m => exact ih m (by simpa using h)

theorem nth?_of_ge {α : Type} (l : List α) (n : Nat) (h : l.length ≤ n) :
    nth? l n = none := by
  induction l generalizing n with
  | nil => rfl
  | cons x xs ih =>
    cases n with
    | zero => simp at h
    | succ m => exact ih m (by simpa using h)

theorem assocFind_replace_self {α : Type} (l : List (Nat × α)) (id : Nat) (a b : α)
    (h : assocFind l id = some a) : assocFind (assocReplace l id b) id = some b := by
  induction l with
  | nil => simp [assocFind] at h
  | cons p rest ih =>
    by_cases hk : p.1 = id
    · simp [assocFind, assocReplace, hk]
    · simp [assocFind, assocReplace, hk] at h ⊢
      exact ih h

theorem assocFind_replace_ne {α : Type} (l : List (Nat × α)) (id id2 : Nat) (b : α)
    (h : id ≠ id2) : assocFind (assocReplace l id2 b) id = assocFind l id := by
  induction l with
  | nil => rfl
  | cons p rest ih =>
    by_cases hk : p.1 = id2
    · have h1 : ¬ id2 = id := fun hc => h hc.symm
      have h2 : ¬ p.1 = id := by rw [hk]; exact h1
      simp [assocReplace, assocFind, hk, h1, h2, ih]
    · simp only [assocReplace]
      rw [if_neg hk]
      by_cases hq : p.1 = id
      · simp [assocFind, hq]
      · simp [assocFind, hq, ih]

theorem assocGet_assocSet_self (l : List (Value × Value)) (k v : Value)
    (hv : v ≠ Value.nil) : assocGet (assocSet l k v) k = v := by
  induction l with
  | nil => simp [assocSet, assocGet, hv]
  | cons p rest ih =>
    by_cases hk : p.1 = k
    · simp [assocSet, assocGet, hk, hv]
    · simp [assocSet, assocGet, hk, ih]

theorem countKey_assocSet_self (l : List (Value × Value)) (k v : Value)
    (hv : v ≠ Value.nil) (hle : countKey l k ≤ 1) :
    countKey (assocSet l k v) k = 1 := by
  induction l with
  | nil => simp [assocSet, countKey, hv]
  | cons p rest ih =>
    by_cases hk : p.1 = k
    · simp [countKey, hk] at hle
      have hrest : countKey rest k = 0 := by omega
      simp [assocSet, hk, hv, countKey, hrest]
    · have hle2 : countKey rest k ≤ 1 := by
        simp [countKey, hk] at hle
        omega
      simp [assocSet, hk, countKey, ih hle2]

/-! ### C9: checkcaller is constantly true -/

/-- C9: for every state and argument list, checkcaller returns true without
error and without touching the state: it never returns false and never
errors. -/
theorem checkcaller_constant_true (s : LuaState) (args : List Value) :
    checkcaller s args = (Except.ok true, s) := rfl

/-! ### C10: restorefunction mutates nothing -/

/-- C10: for every state and function argument, restorefunction returns
unit and the state unchanged: it consults and modifies neither the Hook
Registry nor the function nor the VM, so an installed hook is never undone
by it. -/
theorem restorefunction_no_mutation (s : LuaState) (fid : Nat) :
    restorefunction s fid = (Except.ok (), s) := rfl

/-! ### C5: bounds-check leniency asymmetry -/

/-- C5: reading a constant one past the last valid index returns nil as a
normal non-error result, while writing an upvalue one past the last valid
index fails with the invalid-upvalue-index error. -/
theorem constant_read_lenient_upvalue_write_strict
    (s : LuaState) (fid : Nat) (fd : FunctionData) (v : Value)
    (h : lookupFunction s fid = some fd) :
    (get_function_constant s fid fd.constants.length).1 = Except.ok Value.nil ∧
    (debug_set_upvalue s fid ((fd.upvalues.length : Int) + 1) v).1 =
      Except.error (Err.runtime "Invalid upvalue index") := by
  have h2 : assocFind s.functions fid = some fd := h
  constructor
  · have hnone : nth? fd.constants fd.constants.length = none :=
      nth?_of_ge fd.constants fd.constants.length (le_refl _)
    simp only [get_function_constant, withStackGuard, pushStack, luauGetconstant,
      lookupFunction, h2, hnone]
    cases fd.isLua <;> rfl
  · have huv : uvIdx ((fd.upvalues.length : Int) + 1) fd.upvalues.length = none := by
      unfold uvIdx
      split
      · exfalso; omega
      · rfl
    simp only [debug_set_upvalue, withStackGuard, pushStack, luaSetupvalue,
      lookupFunction, h2, huv]

/-- Concrete interpreted function and state for the bounds witnesses. -/
def fdA : FunctionData := ⟨true, [("u", Value.number 1)], [Value.number 10], []⟩

def sA : LuaState := ⟨[], [(1, fdA)], [], [], 0, [], 2, []⟩

theorem constant_read_lenient_upvalue_write_strict_witness :
    (get_function_constant sA 1 1).1 = Except.ok Value.nil ∧
    (debug_set_upvalue sA 1 2 (Value.number 5)).1 =
      Except.error (Err.runtime "Invalid upvalue index") :=
  constant_read_lenient_upvalue_write_strict sA 1 fdA (Value.number 5) rfl

/-! ### C4: index validation and what happens out of range -/

/-- Concrete state for the out-of-range behaviour: one interpreted function
with a single constant and no upvalues or protos, one frame with a single
slot. -/
def sB : LuaState :=
  ⟨[], [(1, ⟨true, [], [Value.number 3], []⟩)], [], [[Value.number 4]], 0, [], 2, []⟩

/-- C4 counterexample: set_function_constant and set_stack_value at an
out-of-range index do NOT return a typed error — they succeed silently
(returning unit and mutating nothing), refuting the claim at this input. -/
theorem set_function_constant_oob_returns_ok :
    (set_function_constant sB 1 1 (Value.number 7)).1 = Except.ok () ∧
    (set_function_constant sB 1 1 (Value.number 7)).2.functions = sB.functions ∧
    (set_stack_value sB 0 2 (Value.number 7)).1 = Except.ok () ∧
    (set_stack_value sB 0 2 (Value.number 7)).2.frames = sB.frames := by decide

/-- C4 amended: every index argument is checked against the VM-reported
count before any slot is touched, so no out-of-range slot is ever read or
written; but only the upvalue operations fail with a typed error out of
range — out-of-range constant reads, proto reads and stack reads return
nil (or none) as a normal result, and out-of-range set_function_constant
and set_stack_value return success while mutating nothing. -/
theorem index_validation_behaviour
    (s : LuaState) (fid : Nat) (fd : FunctionData) (cidx pidx level index : Nat)
    (i : Int) (v : Value) (b : Bool)
    (hf : lookupFunction s fid = some fd)
    (hc : fd.constants.length ≤ cidx)
    (hp : fd.protos.length ≤ pidx)
    (hu : ¬ (1 ≤ i ∧ i ≤ (fd.upvalues.length : Int)))
    (hs : stackSlot s level index = none) :
    (get_function_constant s fid cidx).1 = Except.ok Value.nil ∧
    (set_function_constant s fid cidx v).1 = Except.ok () ∧
    (set_function_constant s fid cidx v).2.functions = s.functions ∧
    (get_function_proto s fid pidx b).1 = Except.ok none ∧
    (get_stack_value s level index).1 = Except.ok Value.nil ∧
    (set_stack_value s level index v).1 = Except.ok () ∧
    (set_stack_value s level index v).2.frames = s.frames ∧
    (debug_get_upvalue s fid i).1 = Except.error (Err.runtime "Invalid upvalue index") ∧
    (debug_set_upvalue s fid i v).1 = Except.error (Err.runtime "Invalid upvalue index") := by
  have h2 : assocFind s.functions fid = some fd := hf
  have hcnone : nth? fd.constants cidx = none := nth?_of_ge fd.constants cidx hc
  have hpnone : nth? fd.protos pidx = none := nth?_of_ge fd.protos pidx hp
  have huv : uvIdx i fd.upvalues.length = none := by
    unfold uvIdx
    rw [if_neg hu]
  refine ⟨?_, ?_, ?_, ?_, ?_, ?_, ?_, ?_, ?_⟩
  · simp only [get_function_constant, withStackGuard, pushStack, luauGetconstant,
      lookupFunction, h2, hcnone]
    cases fd.isLua <;> rfl
  · simp only [set_function_constant, withStackGuard, pushStack, luauSetconstant,
      popStack, lookupFunction, h2]
  · have hcond : ¬ (fd.isLua = true ∧ cidx < fd.constants.length) := by
      intro hcontra
      omega
    simp only [set_function_constant, withStackGuard, pushStack, luauSetconstant,
      popStack, lookupFunction, h2]
    rw [if_neg hcond]
  · simp only [get_function_proto, withStackGuard, pushStack, luauGetproto,
      lookupFunction, h2, hpnone]
    cases fd.isLua <;> rfl
  · simp only [get_stack_value, withStackGuard]
    rw [hs]
  · simp only [set_stack_value, withStackGuard, pushStack, luauSetstack, popStack]
  · cases hfr : nth? s.frames level with
    | none =>
      simp only [set_stack_value, withStackGuard, pushStack, luauSetstack, popStack]
      simp [hfr]
    | some fr =>
      have hcond : ¬ (1 ≤ index ∧ index ≤ fr.length) := by
        intro hc2
        obtain ⟨a, ha⟩ := nth?_of_lt fr (index - 1) (by omega)
        simp only [stackSlot, hfr, if_pos hc2, ha] at hs
        exact Option.noConfusion hs
      simp only [set_stack_value, withStackGuard, pushStack, luauSetstack, popStack]
      simp [hfr, hcond]
  · simp only [debug_get_upvalue, withStackGuard, pushStack, luaGetupvalue,
      lookupFunction, h2, huv]
  · simp only [debug_set_upvalue, withStackGuard, pushStack, luaSetupvalue,
      lookupFunction, h2, huv]

theorem index_validation_behaviour_witness :
    (get_function_constant sB 1 1).1 = Except.ok Value.nil ∧
    (set_function_constant sB 1 1 (Value.number 7)).1 = Except.ok () ∧
    (set_function_constant sB 1 1 (Value.number 7)).2.functions = sB.functions ∧
    (get_function_proto sB 1 0 false).1 = Except.ok none ∧
    (get_stack_value sB 0 2).1 = Except.ok Value.nil ∧
    (set_stack_value sB 0 2 (Value.number 7)).1 = Except.ok () ∧
    (set_stack_value sB 0 2 (Value.number 7)).2.frames = sB.frames ∧
    (debug_get_upvalue sB 1 1).1 = Except.error (Err.runtime "Invalid upvalue index") ∧
    (debug_set_upvalue sB 1 1 (Value.number 7)).1 =
      Except.error (Err.runtime "Invalid upvalue index") :=
  index_validation_behaviour sB 1 ⟨true, [], [Value.number 3], []⟩ 1 0 0 2 1
    (Value.number 7) false rfl (by decide) (by decide) (by decide) (by decide)

/-! ### C2: read-only restore in create_globals -/

/-- Concrete state for the restore bug: a read-only debug table and one
injected allocation failure for the first member installation. -/
def sC : LuaState := ⟨[(0, ⟨[], true, none⟩)], [], [], [], 0, [], 1, [true]⟩

/-- C2 evaluated at the failing input: the debug table starts read-only,
installing the first member fails, create_globals propagates the error and
leaves the table writable — the flag is NOT restored on the failure path. -/
theorem create_globals_debug_restore_skipped_on_failure :
    (is_table_readonly sC 0).1 = Except.ok true ∧
    (create_globals_debug sC 0).1 = Except.error Err.memory ∧
    (is_table_readonly (create_globals_debug sC 0).2 0).1 = Except.ok false := by decide

/-! ### C7: upvalue round-trip -/

/-- C7: for every interpreted function, every in-range upvalue index and
every representable value, debug_set_upvalue followed by debug_get_upvalue
at the same index returns the value just written. -/
theorem upvalue_roundtrip (s : LuaState) (fid : Nat) (fd : FunctionData) (i : Int) (v : Value)
    (hf : lookupFunction s fid = some fd) (_hl : fd.isLua = true)
    (h1 : 1 ≤ i) (h2 : i ≤ (fd.upvalues.length : Int)) :
    ∃ nm, (debug_get_upvalue (debug_set_upvalue s fid i v).2 fid i).1 =
      Except.ok (some nm, v) := by
  have hforms : assocFind s.functions fid = some fd := hf
  have hn : (i - 1).toNat < fd.upvalues.length := by omega
  have huv : uvIdx i fd.upvalues.length = some (i - 1).toNat := by
    unfold uvIdx
    rw [if_pos ⟨h1, h2⟩]
  obtain ⟨pr, hpr⟩ := nth?_of_lt fd.upvalues (i - 1).toNat hn
  obtain ⟨nm0, old⟩ := pr
  refine ⟨nm0, ?_⟩
  have hset : (debug_set_upvalue s fid i v).2.functions =
      assocReplace s.functions fid
        { fd with upvalues := fd.upvalues.set (i - 1).toNat (nm0, v) } := by
    simp only [debug_set_upvalue, withStackGuard, pushStack, luaSetupvalue, lookupFunction,
      setFunction, popStack, hforms, huv, hpr, List.headD]
  have hget : assocFind (debug_set_upvalue s fid i v).2.functions fid =
      some { fd with upvalues := fd.upvalues.set (i - 1).toNat (nm0, v) } := by
    rw [hset]
    exact assocFind_replace_self s.functions fid fd _ hforms
  have hlen : ({ fd with upvalues := fd.upvalues.set (i - 1).toNat (nm0, v) } :
      FunctionData).upvalues.length = fd.upvalues.length := by
    simp
  have huv2 : uvIdx i ({ fd with upvalues := fd.upvalues.set (i - 1).toNat (nm0, v) } :
      FunctionData).upvalues.length = some (i - 1).toNat := by
    rw [hlen]
    exact huv
  have hnth2 : nth? ({ fd with upvalues := fd.upvalues.set (i - 1).toNat (nm0, v) } :
      FunctionData).upvalues (i - 1).toNat = some (nm0, v) :=
    nth?_set_self fd.upvalues (i - 1).toNat (nm0, v) hn
  simp only [debug_get_upvalue, withStackGuard, pushStack, luaGetupvalue, lookupFunction,
    hget, huv2, hnth2, popValue, popStack, List.headD]

theorem upvalue_roundtrip_witness :
    ∃ nm, (debug_get_upvalue (debug_set_upvalue sA 1 1 (Value.boolean true)).2 1 1).1 =
      Except.ok (some nm, Value.boolean true) :=
  upvalue_roundtrip sA 1 fdA 1 (Value.boolean true) rfl rfl (by decide) (by decide)

/-! ### C8: hookmetamethod -/

/-- Concrete state where the metatable of the hooked object is read-only. -/
def sE : LuaState :=
  ⟨[(1, ⟨[], false, some 2⟩), (2, ⟨[(Value.str "__index", Value.function 5)], true, none⟩)],
   [(5, ⟨true, [], [], []⟩), (6, ⟨true, [], [], []⟩)], [], [], 0, [], 7, []⟩

/-- C8 counterexample: for a value whose metatable exists but is read-only,
hookmetamethod does not return the previous handler — installing the hook
fails on the read-only metatable and the call errors. -/
theorem hookmetamethod_readonly_metatable_errors :
    (hookmetamethod sE (Value.table 1) "__index" 6).1 =
      Except.error (Err.runtime "attempt to modify a readonly table") := by decide

/-- C8 amended: for every value with no metatable, hookmetamethod fails
with "Object has no metatable"; for every value whose metatable exists and
is not read-only, it returns the previous handler stored under the method
name and afterwards the metatable's entry for that name is the
replacement. -/
theorem hookmetamethod_spec (s : LuaState) (obj : Value) (method : String) (hookId : Nat) :
    (valueMetatable s obj = none →
      hookmetamethod s obj method hookId =
        (Except.error (Err.runtime "Object has no metatable"), s)) ∧
    (∀ mtid mtd, valueMetatable s obj = some mtid → lookupTable s mtid = some mtd →
      mtd.readonly = false → s.faults = [] →
      (hookmetamethod s obj method hookId).1 =
        Except.ok (assocGet mtd.entries (Value.str method)) ∧
      lookupTable (hookmetamethod s obj method hookId).2 mtid =
        some { mtd with
                entries := assocSet mtd.entries (Value.str method) (Value.function hookId) } ∧
      assocGet (assocSet mtd.entries (Value.str method) (Value.function hookId))
        (Value.str method) = Value.function hookId) := by
  constructor
  · intro hmt
    have hmt2 : valueMetatable (pushStack s obj) obj = none := hmt
    have hdg : debug_get_metatable s obj = (Except.ok none, s) := by
      simp only [debug_get_metatable, withStackGuard, hmt2]
      simp [pushStack, popStack]
    simp only [hookmetamethod, hdg]
  · intro mtid mtd hmt hlt hro hfl
    have hmt2 : valueMetatable (pushStack s obj) obj = some mtid := hmt
    have hdg : debug_get_metatable s obj = (Except.ok (some mtid), s) := by
      simp only [debug_get_metatable, withStackGuard, hmt2]
      simp [pushStack, popStack, popValue]
    have hlt2 : assocFind s.tables mtid = some mtd := hlt
    have htf : takeFault s = (false, s) := by simp [takeFault, hfl]
    have hmain : hookmetamethod s obj method hookId =
        (Except.ok (assocGet mtd.entries (Value.str method)),
         setTable s mtid
           { mtd with
              entries := assocSet mtd.entries (Value.str method) (Value.function hookId) }) := by
      simp only [hookmetamethod, hdg, tableGet, tableSetM, tableRawSetM, lookupTable, hlt2,
        Option.getD, hro, htf, if_false, Bool.false_eq_true]
    refine ⟨?_, ?_, ?_⟩
    · rw [hmain]
    · rw [hmain]
      exact assocFind_replace_self s.tables mtid mtd _ hlt2
    · exact assocGet_assocSet_self mtd.entries (Value.str method) (Value.function hookId)
        (fun hq => Value.noConfusion hq)

/-- Concrete state where the metatable of the hooked object is writable. -/
def sF : LuaState :=
  ⟨[(1, ⟨[], false, some 2⟩), (2, ⟨[(Value.str "__index", Value.function 5)], false, none⟩)],
   [(5, ⟨true, [], [], []⟩), (6, ⟨true, [], [], []⟩)], [], [], 0, [], 7, []⟩

theorem hookmetamethod_spec_witness :
    (hookmetamethod sF (Value.table 1) "__index" 6).1 = Except.ok (Value.function 5) ∧
    lookupTable (hookmetamethod sF (Value.table 1) "__index" 6).2 2 =
      some ⟨[(Value.str "__index", Value.function 6)], false, none⟩ := by
  have h := (hookmetamethod_spec sF (Value.table 1) "__index" 6).2 2
    ⟨[(Value.str "__index", Value.function 5)], false, none⟩ rfl rfl rfl rfl
  exact ⟨h.1, h.2.1⟩

/-! ### C1: the Hook Registry overwrites on re-hook -/

/-- The state clone_function produces: a fresh closure with the target's
behaviour prepended to the function map. -/
def cloneState (s : LuaState) (fid : Nat) : LuaState :=
  { s with
    functions := (s.nextId, (lookupFunction s fid).getD ⟨true, [], [], []⟩) :: s.functions,
    nextId := s.nextId + 1 }

theorem cloneState_tables (s : LuaState) (fid : Nat) : (cloneState s fid).tables = s.tables := rfl

theorem cloneState_registryId (s : LuaState) (fid : Nat) :
    (cloneState s fid).registryId = s.registryId := rfl

theorem cloneState_faults (s : LuaState) (fid : Nat) : (cloneState s fid).faults = s.faults := rfl

theorem cloneState_nextId (s : LuaState) (fid : Nat) :
    (cloneState s fid).nextId = s.nextId + 1 := rfl

theorem allocTableState_registryId (s1 : LuaState) (tid : Nat) :
    (allocTableState s1 tid).registryId = s1.registryId := rfl

theorem allocTableState_faults (s1 : LuaState) (tid : Nat) :
    (allocTableState s1 tid).faults = s1.faults := rfl

theorem allocTableState_tables (s1 : LuaState) (tid : Nat) :
    (allocTableState s1 tid).tables = (tid, emptyTable) :: s1.tables := rfl

theorem allocTableState_nextId (s1 : LuaState) (tid : Nat) :
    (allocTableState s1 tid).nextId = tid + 1 := rfl

theorem clone_function_eq (s : LuaState) (fid : Nat) :
    clone_function s fid = (Except.ok s.nextId, cloneState s fid) := by
  simp [clone_function, cloneState, withStackGuard, pushStack, popStack, lookupFunction]

theorem lookupTable_setTable_ne (s : LuaState) (tid tid2 : Nat) (td : TableData)
    (h : tid2 ≠ tid) : lookupTable (setTable s tid td) tid2 = lookupTable s tid2 :=
  assocFind_replace_ne s.tables tid2 tid td h

theorem lookupTable_setTable_self (s : LuaState) (tid : Nat) (td td2 : TableData)
    (h : lookupTable s tid = some td) : lookupTable (setTable s tid td2) tid = some td2 :=
  assocFind_replace_self s.tables tid td td2 h

/-- The entries the Hook Registry currently holds: those of the table the
registry's __FUNCTION_HOOKS binding designates, none before it exists. -/
def hookEntries (s : LuaState) : List (Value × Value) :=
  match namedRegistryTable s with
  | some tid => ((lookupTable s tid).getD emptyTable).entries
  | none => []

/-- Well-formedness of the states hookfunction runs in: the registry table
exists, identities below nextId are the allocated ones, no fault is
pending, and an existing hooks table is a writable table distinct from the
registry. -/
def hookInvB (s : LuaState) : Bool :=
  (lookupTable s s.registryId).isSome &&
  decide (s.registryId < s.nextId) &&
  s.faults.isEmpty &&
  (match namedRegistryTable s with
   | some tid =>
     decide (tid ≠ s.registryId) &&
     (match lookupTable s tid with
      | some td => !td.readonly
      | none => false)
   | none => true)

theorem hookInvB_iff (s : LuaState) : hookInvB s = true ↔
    ((lookupTable s s.registryId).isSome = true ∧ s.registryId < s.nextId ∧ s.faults = [] ∧
     (match namedRegistryTable s with
      | some tid => tid ≠ s.registryId ∧
          (match lookupTable s tid with
           | some td => td.readonly = false
           | none => False)
      | none => True)) := by
  unfold hookInvB
  cases hnr : namedRegistryTable s with
  | none => simp [List.isEmpty_iff, and_assoc]
  | some tid =>
    cases hlt : lookupTable s tid with
    | none => simp [hlt, List.isEmpty_iff, and_assoc]
    | some td => simp [hlt, List.isEmpty_iff, and_assoc, Bool.not_eq_true']

theorem hooksTableFor_none (s1 : LuaState) (rd : TableData)
    (hnr : namedRegistryTable s1 = none)
    (hrd : lookupTable s1 s1.registryId = some rd)
    (hne : s1.nextId ≠ s1.registryId) :
    hooksTableFor s1 = (s1.nextId,
      setTable (allocTableState s1 s1.nextId) s1.registryId
        { rd with
           entries := assocSet rd.entries (Value.str hooksKey) (Value.table s1.nextId) }) := by
  have hlook : lookupTable (allocTableState s1 s1.nextId) s1.registryId = some rd := by
    show assocFind ((s1.nextId, emptyTable) :: s1.tables) s1.registryId = some rd
    unfold assocFind
    rw [if_neg hne]
    exact hrd
  simp only [hooksTableFor, hnr, luaRegistrySetNamed, allocTableState_registryId, hlook]

/-- One hookfunction call: it succeeds, returns the fresh clone, preserves
the well-formedness invariant, and its whole effect on the Hook Registry
is one keyed store of the replacement under the target's identity. -/
theorem hookfunction_step (s : LuaState) (fid hookId : Nat) (hinv : hookInvB s = true) :
    (hookfunction s (Value.function fid) hookId).1 = Except.ok (Value.function s.nextId) ∧
    hookInvB (hookfunction s (Value.function fid) hookId).2 = true ∧
    hookEntries (hookfunction s (Value.function fid) hookId).2 =
      assocSet (hookEntries s) (Value.function fid) (Value.function hookId) := by
  obtain ⟨ha, hb, hc, hd⟩ := (hookInvB_iff s).mp hinv
  obtain ⟨rd, hrd⟩ := Option.isSome_iff_exists.mp ha
  cases hnr : namedRegistryTable s with
  | some tid =>
    rw [hnr] at hd
    obtain ⟨hd1, hd2⟩ := hd
    cases hlt : lookupTable s tid with
    | none => rw [hlt] at hd2; exact absurd hd2 (by simp)
    | some td =>
      rw [hlt] at hd2
      have hnr1 : namedRegistryTable (cloneState s fid) = some tid := hnr
      have hlt1 : lookupTable (cloneState s fid) tid = some td := hlt
      have hfl : s.faults = [] := hc
      have htf : takeFault (cloneState s fid) = (false, cloneState s fid) := by
        simp [takeFault, cloneState, hfl]
      have hTFs : hooksTableFor (cloneState s fid) = (tid, cloneState s fid) := by
        simp [hooksTableFor, hnr1]
      have hmain : hookfunction s (Value.function fid) hookId =
          (Except.ok (Value.function s.nextId),
           setTable (cloneState s fid) tid
             { td with
                entries := assocSet td.entries (Value.function fid) (Value.function hookId) }) := by
        simp [hookfunction, clone_function_eq, hTFs, tableSetM, tableRawSetM, hlt1, hd2, htf]
      rw [hmain]
      dsimp only
      have hregne : s.registryId ≠ tid := fun hq => hd1 hq.symm
      have hreg3 : lookupTable (setTable (cloneState s fid) tid
          { td with
             entries := assocSet td.entries (Value.function fid) (Value.function hookId) })
          s.registryId = some rd := by
        rw [lookupTable_setTable_ne _ _ _ _ hregne]
        exact hrd
      have hnr3 : namedRegistryTable (setTable (cloneState s fid) tid
          { td with
             entries := assocSet td.entries (Value.function fid) (Value.function hookId) }) =
          some tid := by
        unfold namedRegistryTable at hnr ⊢
        rw [show (setTable (cloneState s fid) tid
          { td with
             entries := assocSet td.entries (Value.function fid) (Value.function hookId) }).registryId
          = s.registryId from rfl, hreg3]
        rw [hrd] at hnr
        exact hnr
      have hlt3 : lookupTable (setTable (cloneState s fid) tid
          { td with
             entries := assocSet td.entries (Value.function fid) (Value.function hookId) }) tid =
          some { td with
                  entries := assocSet td.entries (Value.function fid) (Value.function hookId) } :=
        lookupTable_setTable_self _ _ _ _ hlt1
      refine ⟨rfl, ?_, ?_⟩
      · rw [hookInvB_iff]
        refine ⟨?_, ?_, ?_, ?_⟩
        · rw [show (setTable (cloneState s fid) tid
            { td with
               entries := assocSet td.entries (Value.function fid) (Value.function hookId) }).registryId
            = s.registryId from rfl, hreg3]
          rfl
        · simpa using Nat.lt_succ_of_lt hb
        · simpa [setTable, cloneState] using hfl
        · rw [hnr3]
          refine ⟨hd1, ?_⟩
          rw [hlt3]
          exact hd2
      · simp only [hookEntries, hnr3, hnr, hlt3, hlt, Option.getD_some]
  | none =>
    have hfl : s.faults = [] := hc
    have hne : (cloneState s fid).nextId ≠ (cloneState s fid).registryId := by
      show s.nextId + 1 ≠ s.registryId
      omega
    have hrd1 : lookupTable (cloneState s fid) (cloneState s fid).registryId = some rd := hrd
    have hnr1 : namedRegistryTable (cloneState s fid) = none := hnr
    have hTF := hooksTableFor_none (cloneState s fid) rd hnr1 hrd1 hne
    dsimp only [cloneState_nextId, cloneState_registryId, cloneState_tables,
      cloneState_faults] at hTF
    have hlookB : lookupTable
        (allocTableState (cloneState s fid) (s.nextId + 1))
        s.registryId = some rd := by
      show assocFind ((s.nextId + 1, emptyTable) :: s.tables) s.registryId = some rd
      unfold assocFind
      rw [if_neg (by omega : ¬ ((s.nextId + 1 : Nat) = s.registryId))]
      exact hrd
    have hlt2 : lookupTable (hooksTableFor (cloneState s fid)).2
        (hooksTableFor (cloneState s fid)).1 = some emptyTable := by
      rw [hTF]
      dsimp only
      rw [lookupTable_setTable_ne _ _ _ _ (by omega : (s.nextId + 1 : Nat) ≠ s.registryId)]
      show assocFind ((s.nextId + 1, emptyTable) :: s.tables) (s.nextId + 1) = some emptyTable
      unfold assocFind
      rw [if_pos rfl]
    have hfl2 : (hooksTableFor (cloneState s fid)).2.faults = [] := by
      rw [hTF]
      exact hfl
    have htf2 : takeFault (hooksTableFor (cloneState s fid)).2 =
        (false, (hooksTableFor (cloneState s fid)).2) := by
      unfold takeFault
      rw [hfl2]
    have hset : tableSetM (hooksTableFor (cloneState s fid)).2
        (hooksTableFor (cloneState s fid)).1 (Value.function fid) (Value.function hookId) =
        (Except.ok (), setTable (hooksTableFor (cloneState s fid)).2
          (hooksTableFor (cloneState s fid)).1
          { emptyTable with
             entries := assocSet emptyTable.entries (Value.function fid)
               (Value.function hookId) }) := by
      simp [tableSetM, tableRawSetM, hlt2, htf2, emptyTable]
    have hmain : hookfunction s (Value.function fid) hookId =
        (Except.ok (Value.function s.nextId),
         setTable (hooksTableFor (cloneState s fid)).2 (hooksTableFor (cloneState s fid)).1
           { emptyTable with
              entries := assocSet emptyTable.entries (Value.function fid)
                (Value.function hookId) }) := by
      simp [hookfunction, clone_function_eq, hset]
    rw [hmain]
    dsimp only
    rw [hTF]
    dsimp only
    have hregne : s.registryId ≠ s.nextId + 1 := by omega
    have hreg2 : lookupTable (setTable
        (allocTableState (cloneState s fid) (s.nextId + 1))
        s.registryId
        { rd with
           entries := assocSet rd.entries (Value.str hooksKey) (Value.table (s.nextId + 1)) })
        s.registryId = some
        { rd with
           entries := assocSet rd.entries (Value.str hooksKey) (Value.table (s.nextId + 1)) } :=
      lookupTable_setTable_self _ _ _ _ hlookB
    have hreg3 : lookupTable (setTable (setTable
        (allocTableState (cloneState s fid) (s.nextId + 1))
        s.registryId
        { rd with
           entries := assocSet rd.entries (Value.str hooksKey) (Value.table (s.nextId + 1)) })
        (s.nextId + 1)
        { emptyTable with
           entries := assocSet emptyTable.entries (Value.function fid) (Value.function hookId) })
        s.registryId = some
        { rd with
           entries := assocSet rd.entries (Value.str hooksKey) (Value.table (s.nextId + 1)) } := by
      rw [lookupTable_setTable_ne _ _ _ _ hregne]
      exact hreg2
    have hlt2b : lookupTable (setTable
        (allocTableState (cloneState s fid) (s.nextId + 1))
        s.registryId
        { rd with
           entries := assocSet rd.entries (Value.str hooksKey) (Value.table (s.nextId + 1)) })
        (s.nextId + 1) = some emptyTable := by
      rw [lookupTable_setTable_ne _ _ _ _ (by omega : (s.nextId + 1 : Nat) ≠ s.registryId)]
      show assocFind ((s.nextId + 1, emptyTable) :: s.tables) (s.nextId + 1) = some emptyTable
      unfold assocFind
      rw [if_pos rfl]
    have hlt3 : lookupTable (setTable (setTable
        (allocTableState (cloneState s fid) (s.nextId + 1))
        s.registryId
        { rd with
           entries := assocSet rd.entries (Value.str hooksKey) (Value.table (s.nextId + 1)) })
        (s.nextId + 1)
        { emptyTable with
           entries := assocSet emptyTable.entries (Value.function fid) (Value.function hookId) })
        (s.nextId + 1) = some
        { emptyTable with
           entries := assocSet emptyTable.entries (Value.function fid)
             (Value.function hookId) } :=
      lookupTable_setTable_self _ _ _ _ hlt2b
    have hga : assocGet (assocSet rd.entries (Value.str hooksKey) (Value.table (s.nextId + 1)))
        (Value.str hooksKey) = Value.table (s.nextId + 1) :=
      assocGet_assocSet_self rd.entries (Value.str hooksKey) (Value.table (s.nextId + 1))
        (fun hq => Value.noConfusion hq)
    have hnr3 : namedRegistryTable (setTable (setTable
        (allocTableState (cloneState s fid) (s.nextId + 1))
        s.registryId
        { rd with
           entries := assocSet rd.entries (Value.str hooksKey) (Value.table (s.nextId + 1)) })
        (s.nextId + 1)
        { emptyTable with
           entries := assocSet emptyTable.entries (Value.function fid)
             (Value.function hookId) }) = some (s.nextId + 1) := by
      unfold namedRegistryTable
      rw [show (setTable (setTable
        (allocTableState (cloneState s fid) (s.nextId + 1))
        s.registryId
        { rd with
           entries := assocSet rd.entries (Value.str hooksKey) (Value.table (s.nextId + 1)) })
        (s.nextId + 1)
        { emptyTable with
           entries := assocSet emptyTable.entries (Value.function fid)
             (Value.function hookId) }).registryId = s.registryId from rfl]
      rw [hreg3]
      dsimp only [Option.getD]
      rw [hga]
    refine ⟨rfl, ?_, ?_⟩
    · rw [hookInvB_iff]
      refine ⟨?_, ?_, ?_, ?_⟩
      · rw [show (setTable (setTable
          (allocTableState (cloneState s fid) (s.nextId + 1))
          s.registryId
          { rd with
             entries := assocSet rd.entries (Value.str hooksKey) (Value.table (s.nextId + 1)) })
          (s.nextId + 1)
          { emptyTable with
             entries := assocSet emptyTable.entries (Value.function fid)
               (Value.function hookId) }).registryId = s.registryId from rfl]
        rw [hreg3]
        rfl
      · show s.registryId < s.nextId + 1 + 1
        omega
      · exact hfl
      · rw [hnr3]
        refine ⟨?_, ?_⟩
        · exact (by omega : (s.nextId + 1 : Nat) ≠ s.registryId)
        · rw [hlt3]
          exact rfl
    · simp only [emptyTable] at hnr3 hlt3
      simp [hookEntries, hnr3, hnr, hlt3, emptyTable]


/-- C1: hooking the same target twice leaves exactly one Hook Registry
entry keyed by the target's identity, and its value is the second
replacement — re-hooking overwrites rather than duplicating. -/
theorem hookfunction_rehook_single_entry (s : LuaState) (fid r1 r2 : Nat)
    (hinv : hookInvB s = true)
    (hcount : countKey (hookEntries s) (Value.function fid) ≤ 1) :
    countKey (hookEntries (hookfunction (hookfunction s (Value.function fid) r1).2
        (Value.function fid) r2).2) (Value.function fid) = 1 ∧
    assocGet (hookEntries (hookfunction (hookfunction s (Value.function fid) r1).2
        (Value.function fid) r2).2) (Value.function fid) = Value.function r2 := by
  obtain ⟨ho1, hi1, he1⟩ := hookfunction_step s fid r1 hinv
  obtain ⟨ho2, hi2, he2⟩ := hookfunction_step (hookfunction s (Value.function fid) r1).2 fid r2 hi1
  rw [he2, he1]
  have hv1 : (Value.function r1) ≠ Value.nil := fun hq => Value.noConfusion hq
  have hv2 : (Value.function r2) ≠ Value.nil := fun hq => Value.noConfusion hq
  constructor
  · exact countKey_assocSet_self _ _ _ hv2
      (le_of_eq (countKey_assocSet_self _ _ _ hv1 hcount))
  · exact assocGet_assocSet_self _ _ _ hv2

/-- Concrete state for the re-hook witness: an empty registry table and
one interpreted target function. -/
def sG : LuaState := ⟨[(0, ⟨[], false, none⟩)], [(1, fdA)], [], [], 0, [], 2, []⟩

theorem hookfunction_rehook_single_entry_witness :
    countKey (hookEntries (hookfunction (hookfunction sG (Value.function 1) 5).2
        (Value.function 1) 6).2) (Value.function 1) = 1 ∧
    assocGet (hookEntries (hookfunction (hookfunction sG (Value.function 1) 5).2
        (Value.function 1) 6).2) (Value.function 1) = Value.function 6 :=
  hookfunction_rehook_single_entry sG 1 5 6 (by decide) (by decide)

/-! ### Shared reduction lemmas for the gc operations -/

theorem takeFault_nil (s : LuaState) (h : s.faults = []) : takeFault s = (false, s) := by
  unfold takeFault
  rw [h]

theorem tableRawSetM_ok (s : LuaState) (tid : Nat) (k v : Value) (td : TableData)
    (hl : lookupTable s tid = some td) (hro : td.readonly = false) (hfl : s.faults = []) :
    tableRawSetM s tid k v =
      (Except.ok (), setTable s tid { td with entries := assocSet td.entries k v }) := by
  simp [tableRawSetM, hl, hro, takeFault_nil s hfl]

theorem tableRawSetM_stack (s : LuaState) (tid : Nat) (k v : Value) :
    ((tableRawSetM s tid k v).2).stack = s.stack := by
  unfold tableRawSetM
  cases hl : lookupTable s tid with
  | none => rfl
  | some td =>
    cases hro : td.readonly with
    | true => simp [hro]
    | false =>
      cases hf : s.faults with
      | nil => simp [hro, takeFault, hf, setTable]
      | cons f rest => cases f <;> simp [hro, takeFault, hf, setTable]

/-- A table key may only be appended, never replaced, when it is absent. -/
theorem assocSet_append (l : List (Value × Value)) (k v : Value) (hv : v ≠ Value.nil)
    (hk : ∀ p ∈ l, p.1 ≠ k) : assocSet l k v = l ++ [(k, v)] := by
  induction l with
  | nil => simp [assocSet, hv]
  | cons p rest ih =>
    have hp : p.1 ≠ k := hk p (List.mem_cons_self p rest)
    simp [assocSet, hp, ih (fun q hq => hk q (List.mem_cons_of_mem p hq))]

/-- The registry walk under benign faults: it completes without error, the
result table stays writable, and its values are exactly the previous ones
followed by the included values of the remaining entries in order. -/
theorem gcLoop_ok : ∀ (remaining : List (Value × Value)) (s : LuaState) (rid : Nat) (i : Int)
    (inc : Value → Bool) (td : TableData),
    s.faults = [] → lookupTable s rid = some td → td.readonly = false →
    (∀ v, inc v = true → v ≠ Value.nil) →
    (∀ p ∈ td.entries, ∀ m : Int, p.1 = Value.number m → m < i) →
    ∃ td2 s2, gcLoop s rid remaining i inc = (Except.ok (), s2) ∧
      lookupTable s2 rid = some td2 ∧ td2.readonly = false ∧
      td2.entries.map Prod.snd =
        td.entries.map Prod.snd ++ (remaining.map Prod.snd).filter inc ∧
      s2.faults = [] := by
  intro remaining
  induction remaining with
  | nil =>
    intro s rid i inc td hfl hl hro _ _
    exact ⟨td, popStack s 1, rfl, hl, hro, by simp, hfl⟩
  | cons pr rest ih =>
    intro s rid i inc td hfl hl hro hnil hkeys
    obtain ⟨k, v⟩ := pr
    rw [show gcLoop s rid ((k, v) :: rest) i inc =
      (let s1 := pushStack (pushStack (popStack s 1) k) v
       if inc v then
         let s2 := popStack (pushStack s1 v) 1
         match tableRawSetM s2 rid (Value.number i) v with
         | (Except.error e, s3) => (Except.error e, s3)
         | (Except.ok _, s3) => gcLoop (popStack s3 1) rid rest (i + 1) inc
       else gcLoop (popStack s1 1) rid rest i inc) from rfl]
    cases hinc : inc v with
    | false =>
      have hfl1 : (popStack (pushStack (pushStack (popStack s 1) k) v) 1).faults = [] := hfl
      have hl1 : lookupTable (popStack (pushStack (pushStack (popStack s 1) k) v) 1) rid =
          some td := hl
      obtain ⟨td2, s2, heq, h1, h2, h3, h4⟩ :=
        ih (popStack (pushStack (pushStack (popStack s 1) k) v) 1) rid i inc td hfl1 hl1 hro
          hnil hkeys
      refine ⟨td2, s2, ?_, h1, h2, ?_, h4⟩
      · simp only [hinc]
        exact heq
      · rw [h3]
        simp [hinc]
    | true =>
      have hvnil : v ≠ Value.nil := hnil v hinc
      have hset := tableRawSetM_ok
        (popStack (pushStack (pushStack (pushStack (popStack s 1) k) v) v) 1) rid
        (Value.number i) v td hl hro hfl
      have happ : assocSet td.entries (Value.number i) v = td.entries ++ [(Value.number i, v)] :=
        assocSet_append td.entries (Value.number i) v hvnil
          (fun p hp hq => by
            have := hkeys p hp i hq
            omega)
      have hl2 : lookupTable (popStack (setTable
          (popStack (pushStack (pushStack (pushStack (popStack s 1) k) v) v) 1) rid
          { td with entries := assocSet td.entries (Value.number i) v }) 1) rid =
          some { td with entries := assocSet td.entries (Value.number i) v } :=
        lookupTable_setTable_self _ _ _ _ hl
      have hfl2 : (popStack (setTable
          (popStack (pushStack (pushStack (pushStack (popStack s 1) k) v) v) 1) rid
          { td with entries := assocSet td.entries (Value.number i) v }) 1).faults = [] := hfl
      have hkeys2 : ∀ p ∈ ({ td with
          entries := assocSet td.entries (Value.number i) v } : TableData).entries,
          ∀ m : Int, p.1 = Value.number m → m < i + 1 := by
        intro p hp m hm
        rw [happ] at hp
        dsimp only at hp
        rcases List.mem_append.mp hp with hin | hin
        · have := hkeys p hin m hm
          omega
        · simp only [List.mem_singleton] at hin
          subst hin
          simp only at hm
          have : i = m := by
            have := Value.number.inj hm
            omega
          omega
      obtain ⟨td2, s2, heq, h1, h2, h3, h4⟩ :=
        ih (popStack (setTable
          (popStack (pushStack (pushStack (pushStack (popStack s 1) k) v) v) 1) rid
          { td with entries := assocSet td.entries (Value.number i) v }) 1) rid (i + 1) inc
          { td with entries := assocSet td.entries (Value.number i) v } hfl2 hl2 hro hnil hkeys2
      refine ⟨td2, s2, ?_, h1, h2, ?_, h4⟩
      · simp only [hinc, if_pos]
        rw [show popStack (pushStack (pushStack (pushStack (popStack s 1) k) v) v) 1 =
          popStack (pushStack (pushStack (pushStack (popStack s 1) k) v) v) 1 from rfl] at hset
        simp only [hset]
        exact heq
      · rw [h3]
        dsimp only
        rw [happ]
        simp [hinc]

/-! ### C6: filter_gc_objects -/

theorem typeTagOf_pos (name : String) (tag : Nat) (h : typeTagOf name = some tag) : 0 < tag := by
  unfold typeTagOf at h
  split at h <;>
    simp_all [LUA_TFUNCTION, LUA_TTABLE, LUA_TUSERDATA, LUA_TTHREAD, LUA_TSTRING] <;>
    omega

theorem createTableM_nil (s : LuaState) (hfl : s.faults = []) :
    createTableM s = (Except.ok s.nextId,
      { s with tables := (s.nextId, emptyTable) :: s.tables, nextId := s.nextId + 1 }) := by
  simp [createTableM, takeFault_nil s hfl]

/-- C6: filter_gc_objects maps the type name case-insensitively to a tag
and returns, without error, a fresh table holding exactly the registry
values of that runtime type, in registry order; a name outside the known
set yields a fresh empty table, not an error. -/
theorem filter_gc_objects_spec (s : LuaState) (name : String) (rd : TableData)
    (hreg : lookupTable s s.registryId = some rd)
    (hne : s.registryId ≠ s.nextId)
    (hfl : s.faults = []) :
    ∃ s2, filter_gc_objects s name = (Except.ok s.nextId, s2) ∧
      (match typeTagOf name with
       | some tag => ∃ td2, lookupTable s2 s.nextId = some td2 ∧
           td2.entries.map Prod.snd =
             (rd.entries.map Prod.snd).filter (fun v => luaType v == tag)
       | none => lookupTable s2 s.nextId = some emptyTable) := by
  have hct := createTableM_nil s hfl
  cases htag : typeTagOf name with
  | none =>
    refine ⟨{ s with tables := (s.nextId, emptyTable) :: s.tables, nextId := s.nextId + 1 },
      ?_, ?_⟩
    · simp [filter_gc_objects, hct, htag]
    · show assocFind ((s.nextId, emptyTable) :: s.tables) s.nextId = some emptyTable
      unfold assocFind
      rw [if_pos rfl]
  | some tag =>
    have hregA : lookupTable
        { s with tables := (s.nextId, emptyTable) :: s.tables, nextId := s.nextId + 1 }
        s.registryId = some rd := by
      show (if s.nextId = s.registryId then some emptyTable
        else assocFind s.tables s.registryId) = some rd
      rw [if_neg (fun hq => hne hq.symm)]
      exact hreg
    have hltA : lookupTable (pushStack (pushStack
        { s with tables := (s.nextId, emptyTable) :: s.tables, nextId := s.nextId + 1 }
        (Value.table s.registryId)) Value.nil) s.nextId = some emptyTable := by
      show assocFind ((s.nextId, emptyTable) :: s.tables) s.nextId = some emptyTable
      unfold assocFind
      rw [if_pos rfl]
    have hflA : (pushStack (pushStack
        { s with tables := (s.nextId, emptyTable) :: s.tables, nextId := s.nextId + 1 }
        (Value.table s.registryId)) Value.nil).faults = [] := hfl
    have hnil : ∀ v, (luaType v == tag) = true → v ≠ Value.nil := by
      intro v hv hq
      subst hq
      have hpos := typeTagOf_pos name tag htag
      have : luaType Value.nil = 0 := rfl
      rw [this] at hv
      have hv2 : 0 = tag := by simpa using hv
      omega
    obtain ⟨td2, s2, heq, h1, h2, h3, h4⟩ := gcLoop_ok rd.entries
      (pushStack (pushStack
        { s with tables := (s.nextId, emptyTable) :: s.tables, nextId := s.nextId + 1 }
        (Value.table s.registryId)) Value.nil) s.nextId 1 (fun v => luaType v == tag)
      emptyTable hflA hltA rfl hnil (by intro p hp m hm; cases hp)
    refine ⟨popStack s2 1, ?_, ?_⟩
    · simp only [filter_gc_objects, hct, htag]
      rw [show (lookupTable { s with tables := (s.nextId, emptyTable) :: s.tables, nextId := s.nextId + 1 } ({ s with tables := (s.nextId, emptyTable) :: s.tables, nextId := s.nextId + 1 } : LuaState).registryId) = some rd from hregA]
      dsimp only [Option.getD]
      rw [heq]
    · refine ⟨td2, ?_, ?_⟩
      · exact h1
      · rw [h3]
        simp [emptyTable]

/-- Concrete registry for the gc-filter witness: three functions, two
tables and one thread, matching the spec scenario. -/
def rdH : TableData :=
  ⟨[(Value.number 1, Value.function 1), (Value.number 2, Value.function 2),
    (Value.number 3, Value.function 3), (Value.number 4, Value.table 5),
    (Value.number 5, Value.table 6), (Value.number 6, Value.thread 7)], false, none⟩

def sH : LuaState :=
  ⟨[(0, rdH), (5, emptyTable), (6, emptyTable)],
   [(1, fdA), (2, fdA), (3, fdA)], [], [], 0, [], 8, []⟩

theorem filter_gc_objects_spec_witness :
    ∃ s2, filter_gc_objects sH "FUNCTION" = (Except.ok sH.nextId, s2) ∧
      (match typeTagOf "FUNCTION" with
       | some tag => ∃ td2, lookupTable s2 sH.nextId = some td2 ∧
           td2.entries.map Prod.snd =
             (rdH.entries.map Prod.snd).filter (fun v => luaType v == tag)
       | none => lookupTable s2 sH.nextId = some emptyTable) :=
  filter_gc_objects_spec sH "FUNCTION" rdH rfl (by decide) rfl

/-! ### C3: operand-stack balance -/

theorem withStackGuard_stack {α : Type} (s : LuaState) (body : LuaState → Except Err α × LuaState)
    (junk : List Value) (h : ((body s).2).stack = junk ++ s.stack) :
    ((withStackGuard s body).2).stack = s.stack := by
  unfold withStackGuard
  dsimp only
  rw [h, List.length_append, Nat.add_sub_cancel, List.drop_left]

theorem constLoop_stack (cs : List Value) : ∀ (s : LuaState) (rid : Nat) (i : Int),
    ((constLoop s rid cs i).2).stack = s.stack := by
  induction cs with
  | nil => intro s rid i; rfl
  | cons c rest ih =>
    intro s rid i
    show ((match tableRawSetM (popStack (pushStack s c) 1) rid (Value.number (i + 1))
        ((pushStack s c).stack.headD Value.nil) with
      | (Except.error e, s3) => (Except.error e, s3)
      | (Except.ok _, s3) => constLoop s3 rid rest (i + 1)).2).stack = s.stack
    cases hr : tableRawSetM (popStack (pushStack s c) 1) rid (Value.number (i + 1))
        ((pushStack s c).stack.headD Value.nil) with
    | mk r s3 =>
      have hst : s3.stack = s.stack := by
        have := tableRawSetM_stack (popStack (pushStack s c) 1) rid (Value.number (i + 1))
          ((pushStack s c).stack.headD Value.nil)
        rw [hr] at this
        simpa [popStack, pushStack] using this
      cases r with
      | error e => simpa using hst
      | ok u => simp [ih s3 rid (i + 1), hst]

theorem protoLoop_stack (ps : List Nat) : ∀ (s : LuaState) (rid : Nat) (i : Int),
    ((protoLoop s rid ps i).2).stack = s.stack := by
  induction ps with
  | nil => intro s rid i; rfl
  | cons p rest ih =>
    intro s rid i
    show ((match tableRawSetM (popStack (pushStack s (Value.function p)) 1) rid
        (Value.number (i + 1)) (Value.function p) with
      | (Except.error e, s3) => (Except.error e, s3)
      | (Except.ok _, s3) => protoLoop s3 rid rest (i + 1)).2).stack = s.stack
    cases hr : tableRawSetM (popStack (pushStack s (Value.function p)) 1) rid
        (Value.number (i + 1)) (Value.function p) with
    | mk r s3 =>
      have hst : s3.stack = s.stack := by
        have := tableRawSetM_stack (popStack (pushStack s (Value.function p)) 1) rid
          (Value.number (i + 1)) (Value.function p)
        rw [hr] at this
        simpa [popStack, pushStack] using this
      cases r with
      | error e => simpa using hst
      | ok u => simp [ih s3 rid (i + 1), hst]

theorem gcLoop_ok_stack (remaining : List (Value × Value)) :
    ∀ (s : LuaState) (rid : Nat) (i : Int) (inc : Value → Bool) (r : Unit) (s2 : LuaState),
    gcLoop s rid remaining i inc = (Except.ok r, s2) → s2.stack = s.stack.drop 1 := by
  induction remaining with
  | nil =>
    intro s rid i inc r s2 heq
    have : s2 = popStack s 1 := (congrArg Prod.snd heq).symm
    rw [this]
    rfl
  | cons pr rest ih =>
    obtain ⟨k, v⟩ := pr
    intro s rid i inc r s2 heq
    rw [show gcLoop s rid ((k, v) :: rest) i inc =
      (let s1 := pushStack (pushStack (popStack s 1) k) v
       if inc v then
         let s2x := popStack (pushStack s1 v) 1
         match tableRawSetM s2x rid (Value.number i) v with
         | (Except.error e, s3) => (Except.error e, s3)
         | (Except.ok _, s3) => gcLoop (popStack s3 1) rid rest (i + 1) inc
       else gcLoop (popStack s1 1) rid rest i inc) from rfl] at heq
    cases hinc : inc v with
    | false =>
      rw [hinc] at heq
      simp only [Bool.false_eq_true, if_false] at heq
      have := ih (popStack (pushStack (pushStack (popStack s 1) k) v) 1) rid i inc r s2 heq
      simpa [popStack, pushStack] using this
    | true =>
      rw [hinc] at heq
      simp only [if_true] at heq
      cases hr : tableRawSetM (popStack (pushStack (pushStack (pushStack (popStack s 1) k) v) v) 1)
          rid (Value.number i) v with
      | mk rr s3 =>
        have hst : s3.stack = v :: k :: s.stack.drop 1 := by
          have := tableRawSetM_stack
            (popStack (pushStack (pushStack (pushStack (popStack s 1) k) v) v) 1) rid
            (Value.number i) v
          rw [hr] at this
          simpa [popStack, pushStack] using this
        rw [hr] at heq
        cases rr with
        | error e =>
          exact absurd (congrArg Prod.fst heq) (by simp)
        | ok u =>
          simp only at heq
          have := ih (popStack s3 1) rid (i + 1) inc r s2 heq
          rw [this]
          simp [popStack, hst]

theorem get_gc_objects_ok_stack (s : LuaState) (b : Bool) (rid : Nat)
    (h : (get_gc_objects s b).1 = Except.ok rid) :
    ((get_gc_objects s b).2).stack = s.stack := by
  unfold get_gc_objects at h ⊢
  cases hct : createTableM s with
  | mk rc s1 =>
    rw [hct] at h
    have hs1 : s1.stack = s.stack := by
      have : ((createTableM s).2).stack = s.stack := by
        unfold createTableM takeFault
        cases hf : s.faults with
        | nil => rfl
        | cons f rest => cases f <;> rfl
      rw [hct] at this
      exact this
    cases rc with
    | error e => simpa using hs1
    | ok rid2 =>
      simp only at h ⊢
      cases hgc : gcLoop (pushStack (pushStack s1 (Value.table s1.registryId)) Value.nil) rid2
          (((lookupTable s1 s1.registryId).getD emptyTable).entries) 1 (gcInclude b) with
      | mk rg s4 =>
        rw [hgc] at h
        cases rg with
        | error e => simp at h
        | ok u =>
          have := gcLoop_ok_stack
            (((lookupTable s1 s1.registryId).getD emptyTable).entries)
            (pushStack (pushStack s1 (Value.table s1.registryId)) Value.nil) rid2 1
            (gcInclude b) u s4 hgc
          simp only
          simp [popStack, this, pushStack, hs1]

theorem filter_gc_objects_ok_stack (s : LuaState) (name : String) (rid : Nat)
    (h : (filter_gc_objects s name).1 = Except.ok rid) :
    ((filter_gc_objects s name).2).stack = s.stack := by
  unfold filter_gc_objects at h ⊢
  cases hct : createTableM s with
  | mk rc s1 =>
    rw [hct] at h
    have hs1 : s1.stack = s.stack := by
      have : ((createTableM s).2).stack = s.stack := by
        unfold createTableM takeFault
        cases hf : s.faults with
        | nil => rfl
        | cons f rest => cases f <;> rfl
      rw [hct] at this
      exact this
    cases rc with
    | error e => simpa using hs1
    | ok rid2 =>
      simp only at h ⊢
      cases htag : typeTagOf name with
      | none => simpa using hs1
      | some tag =>
        rw [htag] at h
        simp only at h ⊢
        cases hgc : gcLoop (pushStack (pushStack s1 (Value.table s1.registryId)) Value.nil) rid2
            (((lookupTable s1 s1.registryId).getD emptyTable).entries) 1
            (fun v => luaType v == tag) with
        | mk rg s4 =>
          rw [hgc] at h
          cases rg with
          | error e => simp at h
          | ok u =>
            have := gcLoop_ok_stack
              (((lookupTable s1 s1.registryId).getD emptyTable).entries)
              (pushStack (pushStack s1 (Value.table s1.registryId)) Value.nil) rid2 1
              (fun v => luaType v == tag) u s4 hgc
            simp only
            simp [popStack, this, pushStack, hs1]

theorem withStackGuard_stack_ex {α : Type} (s : LuaState)
    (body : LuaState → Except Err α × LuaState)
    (h : ∃ junk, ((body s).2).stack = junk ++ s.stack) :
    ((withStackGuard s body).2).stack = s.stack := by
  obtain ⟨junk, hj⟩ := h
  exact withStackGuard_stack s body junk hj

theorem createTableM_stack (s : LuaState) : ((createTableM s).2).stack = s.stack := by
  unfold createTableM takeFault
  cases s.faults with
  | nil => rfl
  | cons f rest => cases f <;> rfl

theorem luauSetconstant_stack (s : LuaState) (fid idx : Nat) :
    (luauSetconstant s fid idx).stack = s.stack.drop 1 := by
  unfold luauSetconstant
  dsimp only
  split
  · split <;> rfl
  · rfl

theorem luauSetstack_stack (s : LuaState) (level index : Nat) :
    (luauSetstack s level index).stack = s.stack.drop 1 := by
  unfold luauSetstack
  dsimp only
  split
  · split <;> rfl
  · rfl

theorem luaSetupvalue_stack (s : LuaState) (fid : Nat) (i : Int) :
    (luaSetupvalue s fid i).2.stack = s.stack ∨
    (luaSetupvalue s fid i).2.stack = s.stack.drop 1 := by
  unfold luaSetupvalue
  cases lookupFunction s fid with
  | none => exact Or.inl rfl
  | some fd =>
    dsimp only
    cases uvIdx i fd.upvalues.length with
    | none => exact Or.inl rfl
    | some n =>
      dsimp only
      cases nth? fd.upvalues n with
      | none => exact Or.inl rfl
      | some pr => exact Or.inr rfl

theorem setValueMetatable_stack (s : LuaState) (v : Value) (mt : Option Nat) :
    (setValueMetatable s v mt).stack = s.stack := by
  unfold setValueMetatable
  split
  · split <;> rfl
  · split <;> rfl
  · rfl

theorem debug_get_registry_value_stack (s : LuaState) :
    ((debug_get_registry_value s).2).stack = s.stack := by
  unfold debug_get_registry_value
  exact withStackGuard_stack s _ [] (by simp [pushStack, popStack, popValue])

theorem debug_get_upvalue_stack (s : LuaState) (fid : Nat) (i : Int) :
    ((debug_get_upvalue s fid i).2).stack = s.stack := by
  unfold debug_get_upvalue
  apply withStackGuard_stack_ex
  dsimp only
  cases h : luaGetupvalue (pushStack s (Value.function fid)) fid i with
  | none => exact ⟨[], by simp [h, pushStack, popStack]⟩
  | some pr => exact ⟨[], by simp [h, pushStack, popStack, popValue]⟩

theorem debug_set_upvalue_stack (s : LuaState) (fid : Nat) (i : Int) (v : Value) :
    ((debug_set_upvalue s fid i v).2).stack = s.stack := by
  unfold debug_set_upvalue
  apply withStackGuard_stack_ex
  dsimp only
  have hst := luaSetupvalue_stack (pushStack (pushStack s (Value.function fid)) v) fid i
  rcases h : luaSetupvalue (pushStack (pushStack s (Value.function fid)) v) fid i with ⟨ro, rs⟩
  rw [h] at hst
  dsimp only at hst
  cases ro with
  | none =>
    rcases hst with h2 | h2
    · exact ⟨[Value.function fid], by simp [popStack, pushStack, h2]⟩
    · exact ⟨[], by simp [popStack, pushStack, h2]⟩
  | some nm =>
    rcases hst with h2 | h2
    · exact ⟨[Value.function fid], by simp [popStack, pushStack, h2]⟩
    · exact ⟨[], by simp [popStack, pushStack, h2]⟩

theorem debug_get_metatable_stack (s : LuaState) (v : Value) :
    ((debug_get_metatable s v).2).stack = s.stack := by
  unfold debug_get_metatable
  apply withStackGuard_stack_ex
  dsimp only
  cases h : valueMetatable (pushStack s v) v with
  | none => exact ⟨[], by simp [h, pushStack, popStack]⟩
  | some mtid => exact ⟨[], by simp [h, pushStack, popStack, popValue]⟩

theorem debug_set_metatable_stack (s : LuaState) (v : Value) (mt : Option Nat) :
    ((debug_set_metatable s v mt).2).stack = s.stack := by
  unfold debug_set_metatable
  apply withStackGuard_stack_ex
  dsimp only
  cases mt with
  | none => exact ⟨[], by simp [pushStack, popStack, setValueMetatable_stack]⟩
  | some m => exact ⟨[], by simp [pushStack, popStack, setValueMetatable_stack]⟩

theorem clone_function_stack (s : LuaState) (fid : Nat) :
    ((clone_function s fid).2).stack = s.stack := by
  unfold clone_function
  exact withStackGuard_stack s _ [] (by simp [pushStack, popStack])

theorem is_table_readonly_stack (s : LuaState) (tid : Nat) :
    ((is_table_readonly s tid).2).stack = s.stack := by
  unfold is_table_readonly
  exact withStackGuard_stack s _ [] (by simp [pushStack, popStack])

theorem set_table_readonly_stack (s : LuaState) (tid : Nat) (ro : Bool) :
    ((set_table_readonly s tid ro).2).stack = s.stack := by
  unfold set_table_readonly
  apply withStackGuard_stack_ex
  dsimp only
  cases h : lookupTable (pushStack s (Value.table tid)) tid with
  | none => exact ⟨[], by simp [h, pushStack, popStack]⟩
  | some td => exact ⟨[], by simp [h, pushStack, popStack, setTable]⟩

theorem get_function_constants_stack (s : LuaState) (fid : Nat) :
    ((get_function_constants s fid).2).stack = s.stack := by
  unfold get_function_constants
  apply withStackGuard_stack_ex
  dsimp only
  have hcs := createTableM_stack s
  rcases hct : createTableM s with ⟨rc, s1⟩
  rw [hct] at hcs
  dsimp only at hcs
  cases rc with
  | error e => exact ⟨[], by simp [hcs]⟩
  | ok rid =>
    dsimp only
    have hls := constLoop_stack (constantsOf (pushStack s1 (Value.function fid)) fid)
      (pushStack s1 (Value.function fid)) rid 0
    rcases hcl : constLoop (pushStack s1 (Value.function fid)) rid
        (constantsOf (pushStack s1 (Value.function fid)) fid) 0 with ⟨ro, rs⟩
    rw [hcl] at hls
    dsimp only at hls
    cases ro with
    | error e => exact ⟨[Value.function fid], by simp [hls, pushStack, hcs]⟩
    | ok u => exact ⟨[], by simp [popStack, hls, pushStack, hcs]⟩

theorem get_function_constant_stack (s : LuaState) (fid idx : Nat) :
    ((get_function_constant s fid idx).2).stack = s.stack := by
  unfold get_function_constant
  apply withStackGuard_stack_ex
  dsimp only
  cases h : luauGetconstant (pushStack s (Value.function fid)) fid idx with
  | none => exact ⟨[], by simp [h, pushStack, popStack]⟩
  | some c => exact ⟨[], by simp [h, pushStack, popStack, popValue]⟩

theorem set_function_constant_stack (s : LuaState) (fid idx : Nat) (v : Value) :
    ((set_function_constant s fid idx v).2).stack = s.stack := by
  unfold set_function_constant
  apply withStackGuard_stack_ex
  dsimp only
  exact ⟨[], by simp [popStack, luauSetconstant_stack, pushStack]⟩

theorem get_function_protos_stack (s : LuaState) (fid : Nat) :
    ((get_function_protos s fid).2).stack = s.stack := by
  unfold get_function_protos
  apply withStackGuard_stack_ex
  dsimp only
  have hcs := createTableM_stack s
  rcases hct : createTableM s with ⟨rc, s1⟩
  rw [hct] at hcs
  dsimp only at hcs
  cases rc with
  | error e => exact ⟨[], by simp [hcs]⟩
  | ok rid =>
    dsimp only
    have hls := protoLoop_stack (protosOf (pushStack s1 (Value.function fid)) fid)
      (pushStack s1 (Value.function fid)) rid 0
    rcases hcl : protoLoop (pushStack s1 (Value.function fid)) rid
        (protosOf (pushStack s1 (Value.function fid)) fid) 0 with ⟨ro, rs⟩
    rw [hcl] at hls
    dsimp only at hls
    cases ro with
    | error e => exact ⟨[Value.function fid], by simp [hls, pushStack, hcs]⟩
    | ok u => exact ⟨[], by simp [popStack, hls, pushStack, hcs]⟩

theorem get_function_proto_stack (s : LuaState) (fid idx : Nat) (b : Bool) :
    ((get_function_proto s fid idx b).2).stack = s.stack := by
  unfold get_function_proto
  apply withStackGuard_stack_ex
  dsimp only
  cases h : luauGetproto (pushStack s (Value.function fid)) fid idx with
  | none => exact ⟨[], by simp [h, pushStack, popStack]⟩
  | some p => exact ⟨[], by simp [h, pushStack, popStack]⟩

theorem get_stack_value_stack (s : LuaState) (level index : Nat) :
    ((get_stack_value s level index).2).stack = s.stack := by
  unfold get_stack_value
  apply withStackGuard_stack_ex
  dsimp only
  cases h : stackSlot s level index with
  | none => exact ⟨[], by simp [h]⟩
  | some v => exact ⟨[], by simp [h, pushStack, popStack, popValue]⟩

theorem set_stack_value_stack (s : LuaState) (level index : Nat) (v : Value) :
    ((set_stack_value s level index v).2).stack = s.stack := by
  unfold set_stack_value
  apply withStackGuard_stack_ex
  dsimp only
  exact ⟨[], by simp [luauSetstack_stack, pushStack, popStack]⟩

/-- C3 amended: every debug and function-internals operation runs under
the stack guard and leaves the operand-stack depth unchanged on every
path, including error returns; the two GC-enumeration operations, which
take no guard, leave the depth unchanged on every successful return, but
an error returned mid-walk leaves the stack deeper than before the call
(see the counterexample). -/
theorem extension_ops_stack_balance :
    (∀ s b rid, (get_gc_objects s b).1 = Except.ok rid →
      ((get_gc_objects s b).2).stack = s.stack) ∧
    (∀ s name rid, (filter_gc_objects s name).1 = Except.ok rid →
      ((filter_gc_objects s name).2).stack = s.stack) ∧
    (∀ s, ((debug_get_registry_value s).2).stack = s.stack) ∧
    (∀ s fid i, ((debug_get_upvalue s fid i).2).stack = s.stack) ∧
    (∀ s fid i v, ((debug_set_upvalue s fid i v).2).stack = s.stack) ∧
    (∀ s v, ((debug_get_metatable s v).2).stack = s.stack) ∧
    (∀ s v mt, ((debug_set_metatable s v mt).2).stack = s.stack) ∧
    (∀ s fid, ((clone_function s fid).2).stack = s.stack) ∧
    (∀ s tid, ((is_table_readonly s tid).2).stack = s.stack) ∧
    (∀ s tid ro, ((set_table_readonly s tid ro).2).stack = s.stack) ∧
    (∀ s fid, ((get_function_constants s fid).2).stack = s.stack) ∧
    (∀ s fid idx, ((get_function_constant s fid idx).2).stack = s.stack) ∧
    (∀ s fid idx v, ((set_function_constant s fid idx v).2).stack = s.stack) ∧
    (∀ s fid, ((get_function_protos s fid).2).stack = s.stack) ∧
    (∀ s fid idx b, ((get_function_proto s fid idx b).2).stack = s.stack) ∧
    (∀ s level index, ((get_stack_value s level index).2).stack = s.stack) ∧
    (∀ s level index v, ((set_stack_value s level index v).2).stack = s.stack) :=
  ⟨get_gc_objects_ok_stack, filter_gc_objects_ok_stack, debug_get_registry_value_stack,
   debug_get_upvalue_stack, debug_set_upvalue_stack, debug_get_metatable_stack,
   debug_set_metatable_stack, clone_function_stack, is_table_readonly_stack,
   set_table_readonly_stack, get_function_constants_stack, get_function_constant_stack,
   set_function_constant_stack, get_function_protos_stack, get_function_proto_stack,
   get_stack_value_stack, set_stack_value_stack⟩

theorem extension_ops_stack_balance_witness :
    ((get_gc_objects sH false).2).stack = sH.stack :=
  extension_ops_stack_balance.1 sH false 8 (by decide)

/-- Concrete state for the C3 counterexample: one registry entry that gets
included, with the store into the result table failing. -/
def sBad : LuaState :=
  ⟨[(0, ⟨[(Value.number 1, Value.function 1)], false, none⟩)], [(1, fdA)], [], [], 0, [], 2,
   [false, true]⟩

/-- C3 counterexample: when the mid-walk store into the result table
fails, get_gc_objects returns an error with three extra slots left on the
operand stack — its depth after the call differs from the depth before,
refuting the claim for the GC-enumeration operations on error paths. -/
theorem get_gc_objects_error_unbalanced :
    (get_gc_objects sBad false).1 = Except.error Err.memory ∧
    ((get_gc_objects sBad false).2).stack.length = 3 ∧
    sBad.stack.length = 0 := by decide

end LuneWeird
